import Mathlib

/-!
Verification of the healthpass prescription system.

This development is a shallow embedding of the core of the repository:
the health-card hex obfuscation and the UTF-8 codec it relies on
(repositories.py), the patient / prescription / audit repositories over a
relational store (repositories.py, db.py), the pickup-code / QR issuance
service (services/qr_service.py), patient registration
(services/patient_service.py), prescription creation
(services/prescription_service.py), the dispense command and report command
(command.py), and the notifier factory (notifier.py).

The database is modelled as explicit lists of rows; SERIAL columns are
modelled by next-id counters; NOW() timestamps and the uuid4 hex string and
the outbound HTTP fetch are oracle parameters of the operations that use
them.  Each state-changing operation returns its result together with the
world it leaves behind (also on error, mirroring exception propagation in
Python, where writes performed before the raise persist).
-/

namespace HealthPass

/-! ### Health-card obfuscation (repositories.py `_hcn_to_hex` / `_hcn_from_hex`)

Python's `str.encode("utf-8")`, `bytes.hex()`, `bytes.fromhex` and
`bytes.decode("utf-8")` are modelled explicitly: UTF-8 encoding and a
validating UTF-8 decoder over byte lists, and per-byte lowercase hex. -/

/-- Lowercase hex digit for a value below 16, as produced by `bytes.hex()`. -/
def hexDigitChar (n : Nat) : Char :=
  if n < 10 then Char.ofNat (48 + n) else Char.ofNat (87 + n)

/-- The model of `bytes.hex()`: two lowercase hex digits per byte. -/
def bytesToHex : List Nat → List Char
  | [] => []
  | b :: bs => hexDigitChar (b / 16) :: hexDigitChar (b % 16) :: bytesToHex bs

/-- Value of one hex digit, accepting the digits `bytes.fromhex` accepts. -/
def hexDigitVal (c : Char) : Option Nat :=
  if 48 ≤ c.toNat ∧ c.toNat ≤ 57 then some (c.toNat - 48)
  else if 97 ≤ c.toNat ∧ c.toNat ≤ 102 then some (c.toNat - 87)
  else if 65 ≤ c.toNat ∧ c.toNat ≤ 70 then some (c.toNat - 55)
  else none

/-- The model of `bytes.fromhex`: parse pairs of hex digits, failing on a
stray digit or a non-hex character (Python raises `ValueError` there). -/
def hexToBytes : List Char → Option (List Nat)
  | [] => some []
  | [_] => none
  | c1 :: c2 :: cs =>
    match hexDigitVal c1, hexDigitVal c2, hexToBytes cs with
    | some h, some l, some bs => some ((h * 16 + l) :: bs)
    | _, _, _ => none

/-- UTF-8 encoding of one Unicode scalar value. -/
def utf8EncodeCp (n : Nat) : List Nat :=
  if n < 128 then [n]
  else if n < 2048 then [192 + n / 64, 128 + n % 64]
  else if n < 65536 then [224 + n / 4096, 128 + n / 64 % 64, 128 + n % 64]
  else [240 + n / 262144, 128 + n / 4096 % 64, 128 + n / 64 % 64, 128 + n % 64]

/-- Decode one scalar value from a first byte and the remaining bytes,
rejecting stray continuation bytes, truncated sequences, overlong forms,
surrogates and out-of-range values, as Python's strict UTF-8 decoder does. -/
def utf8DecodeOne (b : Nat) (bs : List Nat) : Option (Nat × List Nat) :=
  if b < 128 then some (b, bs)
  else if b < 192 then none
  else if b < 224 then
    match bs with
    | b2 :: rest =>
      if 128 ≤ b2 ∧ b2 < 192 ∧ 128 ≤ (b - 192) * 64 + (b2 - 128) then
        some ((b - 192) * 64 + (b2 - 128), rest)
      else none
    | [] => none
  else if b < 240 then
    match bs with
    | b2 :: b3 :: rest =>
      if (128 ≤ b2 ∧ b2 < 192) ∧ (128 ≤ b3 ∧ b3 < 192) ∧
          2048 ≤ (b - 224) * 4096 + (b2 - 128) * 64 + (b3 - 128) ∧
          ¬(55296 ≤ (b - 224) * 4096 + (b2 - 128) * 64 + (b3 - 128) ∧
            (b - 224) * 4096 + (b2 - 128) * 64 + (b3 - 128) < 57344) then
        some ((b - 224) * 4096 + (b2 - 128) * 64 + (b3 - 128), rest)
      else none
    | _ => none
  else if b < 248 then
    match bs with
    | b2 :: b3 :: b4 :: rest =>
      if (128 ≤ b2 ∧ b2 < 192) ∧ (128 ≤ b3 ∧ b3 < 192) ∧ (128 ≤ b4 ∧ b4 < 192) ∧
          65536 ≤ (b - 240) * 262144 + (b2 - 128) * 4096 + (b3 - 128) * 64 + (b4 - 128) ∧
          (b - 240) * 262144 + (b2 - 128) * 4096 + (b3 - 128) * 64 + (b4 - 128) < 1114112 then
        some ((b - 240) * 262144 + (b2 - 128) * 4096 + (b3 - 128) * 64 + (b4 - 128), rest)
      else none
    | _ => none
  else none

/-- Fuelled UTF-8 decoding loop; the fuel is instantiated with the length of
the input, which always suffices since every step consumes a byte. -/
def utf8DecodeAux : Nat → List Nat → Option (List Nat)
  | _, [] => some []
  | 0, _ :: _ => none
  | fuel + 1, b :: bs =>
    match utf8DecodeOne b bs with
    | some (n, rest) => (utf8DecodeAux fuel rest).map (fun ns => n :: ns)
    | none => none

/-- Decode a byte list to the list of Unicode scalar values it encodes. -/
def utf8Decode (l : List Nat) : Option (List Nat) := utf8DecodeAux l.length l

/-- UTF-8 encoding of a list of scalar values. -/
def utf8EncodeList (cps : List Nat) : List Nat := (cps.map utf8EncodeCp).flatten

/-- The model of `str.encode("utf-8")`. -/
def strToUtf8 (s : String) : List Nat := utf8EncodeList (s.data.map Char.toNat)

/-- The model of `bytes.decode("utf-8")`; `none` models `UnicodeDecodeError`. -/
def utf8ToStr (bs : List Nat) : Option String :=
  (utf8Decode bs).map (fun ns => ⟨ns.map Char.ofNat⟩)

/-- `_hcn_to_hex` from repositories.py: `hcn.encode("utf-8").hex()`. -/
def hcn_to_hex (hcn : String) : String := ⟨bytesToHex (strToUtf8 hcn)⟩

/-- `_hcn_from_hex` from repositories.py: `bytes.fromhex(h).decode("utf-8")`;
`none` models the `ValueError` / `UnicodeDecodeError` raise. -/
def hcn_from_hex (h : String) : Option String := (hexToBytes h.data).bind utf8ToStr

/-! ### Data model (models.py / the DDL in db.py) -/

/-- The distinct failure conditions the embedded operations can raise.
Each constructor corresponds to one raise site (or to a database
constraint violation surfacing as a psycopg2 error). -/
inductive DomainErr where
  /-- "Patient with this health card already exists" (patient_service.py). -/
  | duplicatePatient
  /-- "No patient found with that health card number." (command.py). -/
  | patientNotFound
  /-- "No prescription found for that pickup code." (command.py). -/
  | prescriptionNotFound
  /-- "Prescription already dispensed." (command.py). -/
  | alreadyDispensed
  /-- "Prescription has expired and cannot be dispensed." (command.py). -/
  | expired
  /-- `requests` raising on a non-2xx response or a transport error
  (qr_service.py, `resp.raise_for_status()` / `requests.get`). -/
  | qrFetchFailed
  /-- A database constraint violation (unique or foreign key). -/
  | constraintViolation
  /-- "Unknown notifier type" (notifier.py). -/
  | unknownNotifier
  deriving DecidableEq

/-- A row of the `patients` table.  `health_card_no` holds the stored,
hex-obfuscated form. -/
structure PatientRow where
  id : Nat
  health_card_no : String
  first_name : String
  last_name : String
  date_of_birth : Nat
  phone : Option String
  email : Option String
  created_at : Nat
  deriving DecidableEq

/-- A row of the `prescriptions` table. -/
structure PrescriptionRow where
  id : Nat
  patient_id : Nat
  drug_name : String
  dosage : String
  instructions : Option String
  status : String
  pickup_code : Option String
  pickup_qr_path : Option String
  expires_at : Option Nat
  created_at : Nat
  picked_up_at : Option Nat
  deriving DecidableEq

/-- A row of the append-only `audit_log` table. -/
structure AuditRow where
  id : Nat
  event_type : String
  payload : String
  deriving DecidableEq

/-- The relational store: the three tables of db.py plus the next value of
each SERIAL id column. -/
structure DB where
  patients : List PatientRow
  prescriptions : List PrescriptionRow
  audit_log : List AuditRow
  next_patient_id : Nat
  next_prescription_id : Nat
  next_audit_id : Nat
  deriving DecidableEq

/-- The world an operation acts on: the database, the QR image files written
so far (path and content), and a count of outbound QR image fetches. -/
structure World where
  db : DB
  files : List (String × List Nat)
  qr_fetches : Nat
  deriving DecidableEq

/-! ### Repositories (repositories.py) -/

namespace PatientRepo

/-- `SELECT ... FROM patients WHERE health_card_no = %s` with the argument
hex-encoded at the boundary. -/
def get_by_health_card (hcn : String) (db : DB) : Option PatientRow :=
  db.patients.find? (fun r => decide (r.health_card_no = hcn_to_hex hcn))

/-- `INSERT INTO patients ... RETURNING id, created_at`, with the column
constraints from the DDL: `health_card_no VARCHAR(64) UNIQUE` (the stored
value is the hex encoding, twice the UTF-8 byte length of the input),
`first_name`/`last_name VARCHAR(100)`, `phone VARCHAR(30)`,
`email VARCHAR(255)`.  A value longer than its column raises. -/
def create (hcn first_name last_name : String) (dob : Nat)
    (phone email : Option String) (now : Nat) (db : DB) :
    Except DomainErr (PatientRow × DB) :=
  let stored := hcn_to_hex hcn
  if stored.length > 64 ∨ first_name.length > 100 ∨ last_name.length > 100 ∨
      phone.any (fun p => decide (p.length > 30)) = true ∨
      email.any (fun e => decide (e.length > 255)) = true then
    .error .constraintViolation
  else if db.patients.any (fun r => decide (r.health_card_no = stored)) then
    .error .constraintViolation
  else
    let row : PatientRow :=
      { id := db.next_patient_id, health_card_no := stored, first_name, last_name,
        date_of_birth := dob, phone, email, created_at := now }
    .ok (row, { db with patients := db.patients ++ [row],
                        next_patient_id := db.next_patient_id + 1 })

/-- `UPDATE patients SET phone/email ... WHERE id = %s`; a field is written
only when the corresponding argument is not None. -/
def update_contact (patient_id : Nat) (phone email : Option String) (db : DB) : DB :=
  { db with patients := db.patients.map (fun p =>
      if p.id = patient_id then
        { p with phone := match phone with | some v => some v | none => p.phone,
                 email := match email with | some v => some v | none => p.email }
      else p) }

end PatientRepo

namespace PrescriptionRepo

/-- `SELECT pickup_code, pickup_qr_path FROM prescriptions WHERE id = %s`. -/
def get_pickup_code_by_id (prescription_id : Nat) (db : DB) :
    Option (Option String × Option String) :=
  (db.prescriptions.find? (fun r => decide (r.id = prescription_id))).map
    (fun r => (r.pickup_code, r.pickup_qr_path))

/-- `INSERT INTO prescriptions ... RETURNING id, created_at`, with the
foreign key to `patients` and the UNIQUE constraint on `pickup_code` from
the DDL.  `pickup_qr_path` and `picked_up_at` are not in the column list,
so they start NULL. -/
def create (patient_id : Nat) (drug_name dosage : String)
    (instructions : Option String) (status : String) (pickup_code : Option String)
    (expires_at : Option Nat) (now : Nat) (db : DB) :
    Except DomainErr (PrescriptionRow × DB) :=
  if ¬ db.patients.any (fun p => decide (p.id = patient_id)) then
    .error .constraintViolation
  else if pickup_code.isSome ∧
      db.prescriptions.any (fun r => decide (r.pickup_code = pickup_code)) then
    .error .constraintViolation
  else
    let row : PrescriptionRow :=
      { id := db.next_prescription_id, patient_id, drug_name, dosage, instructions,
        status, pickup_code, pickup_qr_path := none, expires_at, created_at := now,
        picked_up_at := none }
    .ok (row, { db with prescriptions := db.prescriptions ++ [row],
                        next_prescription_id := db.next_prescription_id + 1 })

/-- `UPDATE prescriptions SET pickup_code = %s, pickup_qr_path = %s WHERE
id = %s` — both fields written by the one statement.  The UNIQUE constraint
on `pickup_code` fires exactly when a row is actually updated and a
different row already carries the new code. -/
def update_pickup_qr (prescription_id : Nat) (pickup_code qr_path : String) (db : DB) :
    Except DomainErr DB :=
  if db.prescriptions.any (fun r => decide (r.id = prescription_id)) ∧
      db.prescriptions.any (fun r =>
        decide (r.id ≠ prescription_id ∧ r.pickup_code = some pickup_code)) then
    .error .constraintViolation
  else
    .ok { db with prescriptions := db.prescriptions.map (fun r =>
        if r.id = prescription_id then
          { r with pickup_code := some pickup_code, pickup_qr_path := some qr_path }
        else r) }

/-- `SELECT ... FROM prescriptions WHERE pickup_code = %s`. -/
def get_by_pickup_code (code : String) (db : DB) : Option PrescriptionRow :=
  db.prescriptions.find? (fun r => decide (r.pickup_code = some code))

/-- `UPDATE prescriptions SET status = 'DISPENSED', picked_up_at = NOW()
WHERE id = %s` — the single update of the dispense transition. -/
def mark_dispensed (prescription_id : Nat) (now : Nat) (db : DB) : DB :=
  { db with prescriptions := db.prescriptions.map (fun r =>
      if r.id = prescription_id then
        { r with status := "DISPENSED", picked_up_at := some now }
      else r) }

/-- Comparator of `ORDER BY picked_up_at DESC NULLS LAST, created_at DESC`
as a boolean: `dispLe a b` holds when `a` may come before `b`. -/
def dispLe (a b : PrescriptionRow) : Bool :=
  match a.picked_up_at, b.picked_up_at with
  | some x, some y => if x = y then decide (b.created_at ≤ a.created_at) else decide (y < x)
  | some _, none => true
  | none, some _ => false
  | none, none => decide (b.created_at ≤ a.created_at)

/-- The comparator as a relation, for use with `List.insertionSort`. -/
def dispLeR (a b : PrescriptionRow) : Prop := dispLe a b = true

instance : DecidableRel dispLeR := fun a b => by unfold dispLeR; infer_instance

instance : IsTotal PrescriptionRow dispLeR := by
  constructor
  intro a b
  unfold dispLeR dispLe
  cases ha : a.picked_up_at <;> cases hb : b.picked_up_at <;> simp <;>
    (try split_ifs) <;> omega

instance : IsTrans PrescriptionRow dispLeR := by
  constructor
  intro a b c hab hbc
  unfold dispLeR dispLe at hab hbc ⊢
  cases ha : a.picked_up_at <;> cases hb : b.picked_up_at <;> cases hc : c.picked_up_at <;>
    simp_all <;> (try split_ifs at hab hbc ⊢) <;> omega

/-- `SELECT ... WHERE status = 'DISPENSED' ORDER BY picked_up_at DESC NULLS
LAST, created_at DESC`: the rows with status DISPENSED arranged according to
the comparator. -/
def list_dispensed (db : DB) : List PrescriptionRow :=
  List.insertionSort dispLeR
    (db.prescriptions.filter (fun r => decide (r.status = "DISPENSED")))

end PrescriptionRepo

namespace AuditRepo

/-- `INSERT INTO audit_log (event_type, payload) VALUES (%s, %s)`. -/
def record_event (event_type payload : String) (db : DB) : DB :=
  { db with audit_log := db.audit_log ++ [{ id := db.next_audit_id, event_type, payload }],
            next_audit_id := db.next_audit_id + 1 }

end AuditRepo

/-! ### Services -/

/-- `register_patient` from services/patient_service.py: look up by health
card; raise on a hit; otherwise insert and return the created patient. -/
def register_patient (hcn first_name last_name : String) (dob : Nat)
    (phone email : Option String) (now : Nat) (db : DB) :
    Except DomainErr (PatientRow × DB) :=
  match PatientRepo.get_by_health_card hcn db with
  | some _ => .error .duplicatePatient
  | none => PatientRepo.create hcn first_name last_name dob phone email now db

/-- One day of the `timedelta(days=...)` expiry computation, in seconds. -/
def secondsPerDay : Nat := 86400

/-- `create_prescription_for_patient` from services/prescription_service.py:
expiry is now plus `days_valid` days; status starts ACTIVE with no pickup
code. -/
def create_prescription_for_patient (patient_id : Nat) (drug_name dosage : String)
    (instructions : Option String) (days_valid : Nat) (now : Nat) (db : DB) :
    Except DomainErr (PrescriptionRow × DB) :=
  let expires_at := now + days_valid * secondsPerDay
  PrescriptionRepo.create patient_id drug_name dosage instructions "ACTIVE" none
    (some expires_at) now db

/-- Uppercase of a string, character by character (`str.upper` on the hex
alphabet used here). -/
def strUpper (s : String) : String := ⟨s.data.map Char.toUpper⟩

/-- First `n` characters of a string (`s[:n]`). -/
def strTake (s : String) (n : Nat) : String := ⟨s.data.take n⟩

/-- Lowercase of a string, character by character (`str.lower` on the ASCII
configuration values used here). -/
def strLower (s : String) : String := ⟨s.data.map Char.toLower⟩

/-- `generate_pickup_code` from services/qr_service.py:
`uuid.uuid4().hex[:10].upper()`.  The 32-character uuid4 hex string is an
oracle argument. -/
def generate_pickup_code (uuid_hex : String) : String := strUpper (strTake uuid_hex 10)

/-- The output path `qr_codes/prescription_{id}_{code}.png` built in
`ensure_pickup_code_and_qr`. -/
def qr_filename (prescription_id : Nat) (code : String) : String :=
  "qr_codes/prescription_" ++ toString prescription_id ++ "_" ++ code ++ ".png"

/-- Python truthiness of an optional string (`if code and path`): present
and non-empty. -/
def truthy : Option String → Bool
  | some s => decide (s ≠ "")
  | none => false

/-- The generation branch of `ensure_pickup_code_and_qr`: generate a code,
fetch the QR image (`fetch` is `some content` for a 2xx response and `none`
for a non-success response or transport error), write the file, update the
prescription row, and append the QR_GENERATED audit entry. -/
def issue_new_qr (prescription_id : Nat) (uuid_hex : String)
    (fetch : Option (List Nat)) (w : World) :
    Except DomainErr (String × String) × World :=
  let pickup_code := generate_pickup_code uuid_hex
  let out_path := qr_filename prescription_id pickup_code
  let w1 : World := { w with qr_fetches := w.qr_fetches + 1 }
  match fetch with
  | none => (.error .qrFetchFailed, w1)
  | some content =>
    let w2 : World := { w1 with files := w1.files ++ [(out_path, content)] }
    match PrescriptionRepo.update_pickup_qr prescription_id pickup_code out_path w2.db with
    | .error e => (.error e, w2)
    | .ok db2 =>
      let db3 := AuditRepo.record_event "QR_GENERATED"
        ("prescription_id=" ++ toString prescription_id ++ ";pickup_code=" ++ pickup_code ++
          ";path=" ++ out_path) db2
      (.ok (pickup_code, out_path), { w2 with db := db3 })

/-- `ensure_pickup_code_and_qr` from services/qr_service.py: return the
stored pair unchanged when both parts are present and non-empty, otherwise
generate fresh artifacts. -/
def ensure_pickup_code_and_qr (prescription_id : Nat) (uuid_hex : String)
    (fetch : Option (List Nat)) (w : World) :
    Except DomainErr (String × String) × World :=
  match PrescriptionRepo.get_pickup_code_by_id prescription_id w.db with
  | some (code, path) =>
    if truthy code ∧ truthy path then (.ok (code.getD "", path.getD ""), w)
    else issue_new_qr prescription_id uuid_hex fetch w
  | none => issue_new_qr prescription_id uuid_hex fetch w

/-! ### Commands (command.py) -/

/-- `AddPatientCommand.execute`: register, then audit PATIENT_CREATED. -/
def add_patient_command (hcn first_name last_name : String) (dob : Nat)
    (phone email : Option String) (now : Nat) (w : World) :
    Except DomainErr PatientRow × World :=
  match register_patient hcn first_name last_name dob phone email now w.db with
  | .error e => (.error e, w)
  | .ok (p, db1) =>
    let db2 := AuditRepo.record_event "PATIENT_CREATED"
      ("patient_id=" ++ toString p.id ++ ";hcn=" ++ hcn) db1
    (.ok p, { w with db := db2 })

/-- `NewPrescriptionCommand.execute`: resolve the patient by health card,
create the prescription, then audit RX_CREATED. -/
def new_prescription_command (hcn drug_name dosage : String)
    (instructions : Option String) (days_valid : Nat) (now : Nat) (w : World) :
    Except DomainErr PrescriptionRow × World :=
  match PatientRepo.get_by_health_card hcn w.db with
  | none => (.error .patientNotFound, w)
  | some patient =>
    match create_prescription_for_patient patient.id drug_name dosage instructions
        days_valid now w.db with
    | .error e => (.error e, w)
    | .ok (rx, db1) =>
      let db2 := AuditRepo.record_event "RX_CREATED"
        ("prescription_id=" ++ toString rx.id ++ ";patient_id=" ++ toString patient.id) db1
      (.ok rx, { w with db := db2 })

/-- Whether the expiry check of `DispensePrescriptionCommand.execute` fires:
`expires_at` is set and strictly before the current instant. -/
def isExpired (p : PrescriptionRow) (now : Nat) : Bool :=
  match p.expires_at with
  | some t => decide (t < now)
  | none => false

/-- `DispensePrescriptionCommand.execute`: look up by pickup code, reject a
missing, already dispensed or expired prescription, otherwise mark dispensed
and audit RX_DISPENSED. -/
def dispense (pickup_code : String) (now : Nat) (w : World) :
    Except DomainErr Unit × World :=
  match PrescriptionRepo.get_by_pickup_code pickup_code w.db with
  | none => (.error .prescriptionNotFound, w)
  | some p =>
    if p.status = "DISPENSED" then (.error .alreadyDispensed, w)
    else if isExpired p now then (.error .expired, w)
    else
      let db1 := PrescriptionRepo.mark_dispensed p.id now w.db
      let db2 := AuditRepo.record_event "RX_DISPENSED"
        ("prescription_id=" ++ toString p.id ++ ";pickup_code=" ++ pickup_code) db1
      (.ok (), { w with db := db2 })

/-- `ReportDispensedCommand.execute`: read the dispensed rows and audit the
row count. -/
def report_dispensed_command (w : World) : List PrescriptionRow × World :=
  let rows := PrescriptionRepo.list_dispensed w.db
  let db1 := AuditRepo.record_event "REPORT_DISPENSED_GENERATED"
    ("count=" ++ toString rows.length) w.db
  (rows, { w with db := db1 })

/-! ### Notifier (notifier.py) -/

/-- The notifier variants actually constructed by `NotifierFactory`. -/
inductive NotifierKind where
  | email
  | sms
  deriving DecidableEq

/-- `NotifierFactory.create`: read `HP_NOTIFY_TYPE` (the environment value
is the oracle argument, `none` when unset), default "email", lowercase it,
and dispatch; any other value raises ValueError. -/
def NotifierFactory.create (env_value : Option String) : Except DomainErr NotifierKind :=
  let kind := strLower (env_value.getD "email")
  if kind = "email" then .ok .email
  else if kind = "sms" then .ok .sms
  else .error .unknownNotifier

/-- `EmailNotifier.notify_prescription_ready`: skip (with a NOTIFY_EMAIL_SKIPPED
audit entry) when the patient has no email, otherwise audit NOTIFY_EMAIL. -/
def notify_email (patient : PatientRow) (pickup_code : String)
    (qr_path : Option String) (w : World) : World :=
  if ¬ truthy patient.email then
    let db1 := AuditRepo.record_event "NOTIFY_EMAIL_SKIPPED"
      ("patient_id=" ++ toString patient.id ++ ";reason=no_email") w.db
    { w with db := db1 }
  else
    let db1 := AuditRepo.record_event "NOTIFY_EMAIL"
      ("patient_id=" ++ toString patient.id ++ ";pickup_code=" ++ pickup_code ++
        ";qr_included=" ++ toString (truthy qr_path)) w.db
    { w with db := db1 }

/-- `SMSNotifier.notify_prescription_ready`, the SMS counterpart. -/
def notify_sms (patient : PatientRow) (pickup_code : String)
    (qr_path : Option String) (w : World) : World :=
  if ¬ truthy patient.phone then
    let db1 := AuditRepo.record_event "NOTIFY_SMS_SKIPPED"
      ("patient_id=" ++ toString patient.id ++ ";reason=no_phone") w.db
    { w with db := db1 }
  else
    let db1 := AuditRepo.record_event "NOTIFY_SMS"
      ("patient_id=" ++ toString patient.id ++ ";pickup_code=" ++ pickup_code ++
        ";qr_included=" ++ toString (truthy qr_path)) w.db
    { w with db := db1 }

/-! ### The system's operations and reachable states -/

/-- One invocation of a state-changing entry point of the system, with its
oracle inputs (current time, uuid4 hex, fetch outcome, environment). -/
inductive Op where
  | addPatient (hcn first_name last_name : String) (dob : Nat)
      (phone email : Option String) (now : Nat)
  | newPrescription (hcn drug_name dosage : String) (instructions : Option String)
      (days_valid : Nat) (now : Nat)
  | generateQr (prescription_id : Nat) (uuid_hex : String) (fetch : Option (List Nat))
  | dispenseOp (pickup_code : String) (now : Nat)
  | reportDispensed
  | notifyEmailOp (patient : PatientRow) (pickup_code : String) (qr_path : Option String)
  | notifySmsOp (patient : PatientRow) (pickup_code : String) (qr_path : Option String)
  | updateContactOp (patient_id : Nat) (phone email : Option String)

/-- Well-formedness of an operation's oracle inputs: `uuid.uuid4().hex` is
always a 32-character string.  All other inputs are unconstrained. -/
def Op.Valid : Op → Prop
  | .generateQr _ uuid_hex _ => uuid_hex.length = 32
  | _ => True

/-- The world after running one operation (errors leave the world as the
operation left it). -/
def Op.step : Op → World → World
  | .addPatient hcn fn ln dob ph em now, w => (add_patient_command hcn fn ln dob ph em now w).2
  | .newPrescription hcn dn dos ins dv now, w =>
      (new_prescription_command hcn dn dos ins dv now w).2
  | .generateQr rid u f, w => (ensure_pickup_code_and_qr rid u f w).2
  | .dispenseOp c now, w => (dispense c now w).2
  | .reportDispensed, w => (report_dispensed_command w).2
  | .notifyEmailOp p c q, w => notify_email p c q w
  | .notifySmsOp p c q, w => notify_sms p c q w
  | .updateContactOp pid ph em, w => { w with db := PatientRepo.update_contact pid ph em w.db }

/-- The freshly initialised store (`init_schema` creates empty tables;
SERIAL columns start at 1). -/
def World.init : World :=
  { db := { patients := [], prescriptions := [], audit_log := [],
            next_patient_id := 1, next_prescription_id := 1, next_audit_id := 1 },
    files := [], qr_fetches := 0 }

/-- Worlds reachable from the initial store by valid operations. -/
inductive Reachable : World → Prop where
  | init : Reachable World.init
  | step (op : Op) (hop : op.Valid) {w : World} : Reachable w → Reachable (op.step w)

/-! ### Invariant predicates -/

/-- Rows are pairwise compatible: distinct ids, and distinct pickup codes
whenever both carry one. -/
def pairOk (a b : PrescriptionRow) : Prop :=
  a.id ≠ b.id ∧ ∀ c, a.pickup_code = some c → b.pickup_code ≠ some c

/-- The pickup fields of every prescription row are both set or both unset. -/
def pickupConsistent (db : DB) : Prop :=
  ∀ r ∈ db.prescriptions, (r.pickup_code.isSome ↔ r.pickup_qr_path.isSome)

/-- The inductive invariant of the prescriptions table. -/
structure Inv (db : DB) : Prop where
  id_lt : ∀ r ∈ db.prescriptions, r.id < db.next_prescription_id
  distinct : db.prescriptions.Pairwise pairOk
  status_cases : ∀ r ∈ db.prescriptions, r.status = "ACTIVE" ∨ r.status = "DISPENSED"
  dispensed_picked : ∀ r ∈ db.prescriptions, r.status = "DISPENSED" → r.picked_up_at.isSome
  dispensed_has_code : ∀ r ∈ db.prescriptions, r.status = "DISPENSED" → r.pickup_code.isSome
  pickup_both : ∀ r ∈ db.prescriptions, (r.pickup_code.isSome ↔ r.pickup_qr_path.isSome)
  code_nonempty : ∀ r ∈ db.prescriptions, r.pickup_code ≠ some ""
  path_nonempty : ∀ r ∈ db.prescriptions, r.pickup_qr_path ≠ some ""

/-- The ordering stated by the report contract, written from its words:
most recently picked up first, never-picked-up entries after all picked-up
ones, ties (and the never-picked-up block) by creation time descending. -/
def claimOrder (a b : PrescriptionRow) : Prop :=
  match a.picked_up_at, b.picked_up_at with
  | some x, some y => y < x ∨ (x = y ∧ b.created_at ≤ a.created_at)
  | some _, none => True
  | none, some _ => False
  | none, none => b.created_at ≤ a.created_at

/-! ### Concrete example data, used by witnesses and counterexamples -/

/-- A freshly created prescription: ACTIVE, no pickup artifacts yet. -/
def rowFresh : PrescriptionRow :=
  { id := 1, patient_id := 1, drug_name := "Ibuprofen", dosage := "200mg",
    instructions := none, status := "ACTIVE", pickup_code := none,
    pickup_qr_path := none, expires_at := some 604800, created_at := 0,
    picked_up_at := none }

/-- The same prescription with pickup artifacts already issued. -/
def rowIssued : PrescriptionRow :=
  { rowFresh with pickup_code := some "ABCDE12345",
                  pickup_qr_path := some "qr_codes/prescription_1_ABCDE12345.png" }

/-- An issued prescription whose expiry is already in the past at time 100. -/
def rowExpired : PrescriptionRow :=
  { rowFresh with id := 2, pickup_code := some "ZZZZZZZZZZ",
                  pickup_qr_path := some "qr_codes/prescription_2_ZZZZZZZZZZ.png",
                  expires_at := some 10 }

/-- An already dispensed prescription row. -/
def rowDone : PrescriptionRow :=
  { rowFresh with status := "DISPENSED", picked_up_at := some 50,
                  pickup_code := some "DDDDDDDDDD",
                  pickup_qr_path := some "qr_codes/prescription_1_DDDDDDDDDD.png" }

/-- A stored patient row for health card "HCN123". -/
def patAda : PatientRow :=
  { id := 1, health_card_no := hcn_to_hex "HCN123", first_name := "Ada",
    last_name := "Lovelace", date_of_birth := 19900101, phone := none,
    email := none, created_at := 0 }

/-- A store holding Ada and the given prescriptions. -/
def dbEx (rows : List PrescriptionRow) : DB :=
  { patients := [patAda], prescriptions := rows, audit_log := [],
    next_patient_id := 2, next_prescription_id := 3, next_audit_id := 1 }

/-- A world around `dbEx`. -/
def wEx (rows : List PrescriptionRow) : World :=
  { db := dbEx rows, files := [], qr_fetches := 0 }

/-- A fixed uuid4 hex string used as the oracle input of issuance. -/
def exUuid : String := "0123456789abcdef0123456789abcdef"

/-- Register Ada. -/
def exOp1 : Op := .addPatient "HCN123" "Ada" "Lovelace" 19900101 none none 0

/-- Create a prescription for Ada at time 0, valid 7 days. -/
def exOp2 : Op := .newPrescription "HCN123" "Ibuprofen" "200mg" none 7 0

/-- Issue pickup artifacts for prescription 1 (successful fetch). -/
def exOp3 : Op := .generateQr 1 exUuid (some [137, 80, 78, 71])

/-- Dispense by the generated pickup code at time 1. -/
def exOp4 : Op := .dispenseOp "0123456789" 1

/-- The world after registering, prescribing, issuing and dispensing. -/
def exW4 : World := exOp4.step (exOp3.step (exOp2.step (exOp1.step World.init)))

/-- The dispensed prescription row present in `exW4`. -/
def rowDispensedEx : PrescriptionRow :=
  { id := 1, patient_id := 1, drug_name := "Ibuprofen", dosage := "200mg",
    instructions := none, status := "DISPENSED", pickup_code := some "0123456789",
    pickup_qr_path := some "qr_codes/prescription_1_0123456789.png",
    expires_at := some 604800, created_at := 0, picked_up_at := some 1 }

/-! ### Lemmas about the hex and UTF-8 codecs -/

theorem hexDigitVal_hexDigitChar (n : Nat) (h : n < 16) :
    hexDigitVal (hexDigitChar n) = some n := by
  have key : ∀ m : Fin 16, hexDigitVal (hexDigitChar m.val) = some m.val := by decide
  exact key ⟨n, h⟩

theorem hexToBytes_bytesToHex (bs : List Nat) (h : ∀ b ∈ bs, b < 256) :
    hexToBytes (bytesToHex bs) = some bs := by
  induction bs with
  | nil => rfl
  | cons b t ih =>
    have hb : b < 256 := h b (by simp)
    have ht : ∀ x ∈ t, x < 256 := fun x hx => h x (by simp [hx])
    have e : b / 16 * 16 + b % 16 = b := by omega
    simp only [bytesToHex, hexToBytes,
      hexDigitVal_hexDigitChar (b / 16) (by omega),
      hexDigitVal_hexDigitChar (b % 16) (by omega), ih ht, e]

theorem utf8DecodeOne_encode (n : Nat) (rest : List Nat)
    (hv : n < 55296 ∨ (57343 < n ∧ n < 1114112)) :
    ∃ b tail, utf8EncodeCp n = b :: tail ∧ tail.length + 1 = (utf8EncodeCp n).length ∧
      utf8DecodeOne b (tail ++ rest) = some (n, rest) := by
  by_cases h1 : n < 128
  · refine ⟨n, [], by simp [utf8EncodeCp, h1], by simp [utf8EncodeCp, h1], ?_⟩
    simp only [List.nil_append, utf8DecodeOne, if_pos h1]
  · by_cases h2 : n < 2048
    · refine ⟨192 + n / 64, [128 + n % 64], by simp [utf8EncodeCp, h1, h2],
        by simp [utf8EncodeCp, h1, h2], ?_⟩
      simp only [List.cons_append, List.nil_append, utf8DecodeOne]
      rw [if_neg (by omega), if_neg (by omega), if_pos (by omega)]
      split
      · simp only [Option.some.injEq, Prod.mk.injEq]
        exact ⟨by omega, trivial⟩
      · omega
    · by_cases h3 : n < 65536
      · refine ⟨224 + n / 4096, [128 + n / 64 % 64, 128 + n % 64],
          by simp [utf8EncodeCp, h1, h2, h3], by simp [utf8EncodeCp, h1, h2, h3], ?_⟩
        simp only [List.cons_append, List.nil_append, utf8DecodeOne]
        rw [if_neg (by omega), if_neg (by omega), if_neg (by omega), if_pos (by omega)]
        split
        · simp only [Option.some.injEq, Prod.mk.injEq]
          exact ⟨by omega, trivial⟩
        · omega
      · refine ⟨240 + n / 262144, [128 + n / 4096 % 64, 128 + n / 64 % 64, 128 + n % 64],
          by simp [utf8EncodeCp, h1, h2, h3], by simp [utf8EncodeCp, h1, h2, h3], ?_⟩
        simp only [List.cons_append, List.nil_append, utf8DecodeOne]
        rw [if_neg (by omega), if_neg (by omega), if_neg (by omega), if_neg (by omega),
          if_pos (by omega)]
        split
        · simp only [Option.some.injEq, Prod.mk.injEq]
          exact ⟨by omega, trivial⟩
        · omega

theorem utf8DecodeAux_encodeList (cps : List Nat)
    (hv : ∀ n ∈ cps, n < 55296 ∨ (57343 < n ∧ n < 1114112)) :
    ∀ fuel, (utf8EncodeList cps).length ≤ fuel →
      utf8DecodeAux fuel (utf8EncodeList cps) = some cps := by
  induction cps with
  | nil =>
    intro fuel _
    simp only [utf8EncodeList, List.map_nil, List.flatten_nil]
    cases fuel <;> rfl
  | cons n t ih =>
    intro fuel hfuel
    have hvn : n < 55296 ∨ (57343 < n ∧ n < 1114112) := hv n (by simp)
    have hvt : ∀ m ∈ t, m < 55296 ∨ (57343 < m ∧ m < 1114112) := fun m hm => hv m (by simp [hm])
    obtain ⟨b, tail, henc, hlen, hone⟩ := utf8DecodeOne_encode n (utf8EncodeList t) hvn
    have hsplit : utf8EncodeList (n :: t) = b :: (tail ++ utf8EncodeList t) := by
      simp [utf8EncodeList, henc]
    rw [hsplit] at hfuel ⊢
    cases fuel with
    | zero => simp at hfuel
    | succ f =>
      have hlt : (utf8EncodeList t).length ≤ f := by
        simp [List.length_append] at hfuel
        omega
      simp only [utf8DecodeAux, hone, ih hvt f hlt]
      rfl

theorem utf8Decode_encodeList (cps : List Nat)
    (hv : ∀ n ∈ cps, n < 55296 ∨ (57343 < n ∧ n < 1114112)) :
    utf8Decode (utf8EncodeList cps) = some cps :=
  utf8DecodeAux_encodeList cps hv _ le_rfl

theorem char_toNat_valid (c : Char) :
    c.toNat < 55296 ∨ (57343 < c.toNat ∧ c.toNat < 1114112) := by
  have h := c.valid
  simp [UInt32.isValidChar, Nat.isValidChar] at h
  rcases h with h | h
  · exact Or.inl h
  · exact Or.inr ⟨h.1, h.2⟩

theorem utf8EncodeCp_lt_256 (n : Nat)
    (hv : n < 55296 ∨ (57343 < n ∧ n < 1114112)) :
    ∀ b ∈ utf8EncodeCp n, b < 256 := by
  intro b hb
  unfold utf8EncodeCp at hb
  split_ifs at hb <;> simp at hb <;> omega

theorem strToUtf8_lt_256 (s : String) : ∀ b ∈ strToUtf8 s, b < 256 := by
  intro b hb
  simp only [strToUtf8, utf8EncodeList, List.mem_flatten, List.mem_map] at hb
  obtain ⟨l, ⟨x, hx, rfl⟩, hbl⟩ := hb
  obtain ⟨c, hc, rfl⟩ := hx
  exact utf8EncodeCp_lt_256 c.toNat (char_toNat_valid c) b hbl

theorem utf8ToStr_strToUtf8 (s : String) : utf8ToStr (strToUtf8 s) = some s := by
  have hv : ∀ n ∈ s.data.map Char.toNat, n < 55296 ∨ (57343 < n ∧ n < 1114112) := by
    intro n hn
    obtain ⟨c, _, rfl⟩ := List.mem_map.mp hn
    exact char_toNat_valid c
  simp only [utf8ToStr, strToUtf8, utf8Decode_encodeList _ hv, Option.map_some']
  congr 1
  rw [List.map_map]
  conv_rhs => rw [show s = ⟨s.data⟩ from rfl]
  congr 1
  have : ∀ l : List Char, l.map (Char.ofNat ∘ Char.toNat) = l := by
    intro l
    induction l with
    | nil => rfl
    | cons c t ih => simp [ih, Char.ofNat_toNat]
  exact this s.data

/-- Claim C10: round-trip of the health-card obfuscation — for every string
`s` (including the empty string and all printable inputs), decoding the
stored encoding of `s` yields `s`: `hcn_from_hex (hcn_to_hex s) = some s`
(the `some` reflects that decoding is fallible on other inputs). -/
theorem C10_hcn_round_trip (s : String) : hcn_from_hex (hcn_to_hex s) = some s := by
  simp only [hcn_from_hex, hcn_to_hex]
  rw [hexToBytes_bytesToHex _ (strToUtf8_lt_256 s)]
  exact utf8ToStr_strToUtf8 s

/-! ### General helper lemmas about the store -/

theorem map_update_id (l : List PrescriptionRow) (rid : Nat)
    (f : PrescriptionRow → PrescriptionRow) (h : ∀ x ∈ l, x.id ≠ rid) :
    l.map (fun r => if r.id = rid then f r else r) = l := by
  induction l with
  | nil => rfl
  | cons a t ih =>
    have ha : a.id ≠ rid := h a (by simp)
    have ht : ∀ x ∈ t, x.id ≠ rid := fun x hx => h x (by simp [hx])
    simp [if_neg ha, ih ht]

theorem pairOk_symm : ∀ {a b : PrescriptionRow}, pairOk a b → pairOk b a := by
  intro a b ⟨hid, hcode⟩
  refine ⟨fun h => hid h.symm, fun c hb ha => hcode c ha hb⟩

theorem eq_of_mem_same_id {l : List PrescriptionRow} (hl : l.Pairwise pairOk)
    {a b : PrescriptionRow} (ha : a ∈ l) (hb : b ∈ l) (hid : a.id = b.id) : a = b := by
  by_contra hne
  induction l with
  | nil => simp at ha
  | cons x t ih =>
    rcases List.pairwise_cons.mp hl with ⟨hx, ht⟩
    rcases List.mem_cons.mp ha with rfl | ha2
    · rcases List.mem_cons.mp hb with rfl | hb2
      · exact hne rfl
      · exact (hx b hb2).1 hid
    · rcases List.mem_cons.mp hb with rfl | hb2
      · exact (hx a ha2).1 hid.symm
      · exact ih ht ha2 hb2

theorem find_by_id {l : List PrescriptionRow} (hl : l.Pairwise pairOk)
    {r : PrescriptionRow} (hr : r ∈ l) :
    l.find? (fun x => decide (x.id = r.id)) = some r := by
  induction l with
  | nil => simp at hr
  | cons a t ih =>
    rcases List.pairwise_cons.mp hl with ⟨ha, ht⟩
    rcases List.mem_cons.mp hr with rfl | hr2
    · simp [List.find?]
    · have hd : decide (a.id = r.id) = false := by simp [(ha r hr2).1]
      simp only [List.find?, hd]
      exact ih ht hr2

theorem find_by_code {l : List PrescriptionRow} (hl : l.Pairwise pairOk)
    {r : PrescriptionRow} {c : String} (hr : r ∈ l) (hc : r.pickup_code = some c) :
    l.find? (fun x => decide (x.pickup_code = some c)) = some r := by
  induction l with
  | nil => simp at hr
  | cons a t ih =>
    rcases List.pairwise_cons.mp hl with ⟨ha, ht⟩
    rcases List.mem_cons.mp hr with rfl | hr2
    · simp [List.find?, hc]
    · have hne : a.pickup_code ≠ some c := by
        intro hac
        exact (ha r hr2).2 c hac hc
      have hd : decide (a.pickup_code = some c) = false := by simp [hne]
      simp only [List.find?, hd]
      exact ih ht hr2

theorem find?_map_by_id (l : List PrescriptionRow) (n : Nat)
    (f : PrescriptionRow → PrescriptionRow) (hf : ∀ x, (f x).id = x.id) :
    (l.map f).find? (fun x => decide (x.id = n)) =
      (l.find? (fun x => decide (x.id = n))).map f := by
  induction l with
  | nil => rfl
  | cons a t ih =>
    simp only [List.map_cons, List.find?, hf a]
    by_cases h : a.id = n
    · have hd : decide (a.id = n) = true := by simp [h]
      simp only [hd]
      rfl
    · have hd : decide (a.id = n) = false := by simp [h]
      simp only [hd]
      exact ih

theorem string_mk_eq_empty_iff (l : List Char) : (⟨l⟩ : String) = "" ↔ l = [] := by
  constructor
  · intro h
    exact congrArg String.data h
  · intro h
    rw [h]

theorem generate_pickup_code_ne_empty (u : String) (hu : u ≠ "") :
    generate_pickup_code u ≠ "" := by
  intro h
  rw [generate_pickup_code, strUpper, strTake, string_mk_eq_empty_iff,
    List.map_eq_nil_iff, List.take_eq_nil_iff] at h
  rcases h with h | h
  · exact absurd h (by decide)
  · exact hu ((string_mk_eq_empty_iff u.data).mpr h)

theorem qr_filename_ne_empty (rid : Nat) (c : String) : qr_filename rid c ≠ "" := by
  intro h
  have hd := congrArg String.data h
  rw [qr_filename] at hd
  simp only [String.data_append, List.append_eq_nil] at hd
  exact absurd hd.1.1.1.1 (by decide)

/-! ### Behaviour of the issuance operation -/

theorem get_pickup_code_by_id_cases (rid : Nat) (db : DB) :
    PrescriptionRepo.get_pickup_code_by_id rid db = none ∨
    ∃ q ∈ db.prescriptions, q.id = rid ∧
      PrescriptionRepo.get_pickup_code_by_id rid db =
        some (q.pickup_code, q.pickup_qr_path) := by
  rcases hft : db.prescriptions.find? (fun x => decide (x.id = rid)) with _ | q
  · left
    unfold PrescriptionRepo.get_pickup_code_by_id
    rw [hft]
    rfl
  · right
    refine ⟨q, List.mem_of_find?_eq_some hft, by simpa using List.find?_some hft, ?_⟩
    unfold PrescriptionRepo.get_pickup_code_by_id
    rw [hft]
    rfl

theorem ensure_fast (rid : Nat) (u : String) (fetch : Option (List Nat)) (w : World)
    (c p : String)
    (hfind : PrescriptionRepo.get_pickup_code_by_id rid w.db = some (some c, some p))
    (hc : c ≠ "") (hp : p ≠ "") :
    ensure_pickup_code_and_qr rid u fetch w = (.ok (c, p), w) := by
  unfold ensure_pickup_code_and_qr
  rw [hfind]
  show (if truthy (some c) = true ∧ truthy (some p) = true
      then ((Except.ok ((some c).getD "", (some p).getD ""), w) :
        Except DomainErr (String × String) × World)
      else issue_new_qr rid u fetch w) = (Except.ok (c, p), w)
  rw [if_pos (by simp [truthy, hc, hp])]
  rfl

theorem ensure_not_fast (rid : Nat) (u : String) (fetch : Option (List Nat)) (w : World)
    (h : ∀ c p, PrescriptionRepo.get_pickup_code_by_id rid w.db = some (c, p) →
      ¬(truthy c = true ∧ truthy p = true)) :
    ensure_pickup_code_and_qr rid u fetch w = issue_new_qr rid u fetch w := by
  unfold ensure_pickup_code_and_qr
  rcases hfind : PrescriptionRepo.get_pickup_code_by_id rid w.db with _ | cp
  · rfl
  · obtain ⟨c, p⟩ := cp
    show (if truthy c = true ∧ truthy p = true
        then ((Except.ok (c.getD "", p.getD ""), w) :
          Except DomainErr (String × String) × World)
        else issue_new_qr rid u fetch w) = issue_new_qr rid u fetch w
    exact if_neg (h c p hfind)

theorem issue_new_qr_fail (rid : Nat) (u : String) (w : World) :
    issue_new_qr rid u none w =
      (.error .qrFetchFailed, { w with qr_fetches := w.qr_fetches + 1 }) := rfl

theorem issue_new_qr_ok (rid : Nat) (u : String) (content : List Nat) (w : World)
    (hguard : ¬(w.db.prescriptions.any (fun r => decide (r.id = rid)) = true ∧
      w.db.prescriptions.any (fun r =>
        decide (r.id ≠ rid ∧ r.pickup_code = some (generate_pickup_code u))) = true)) :
    issue_new_qr rid u (some content) w =
      (.ok (generate_pickup_code u, qr_filename rid (generate_pickup_code u)),
       { w with
         db := { w.db with
           prescriptions := w.db.prescriptions.map (fun r =>
             if r.id = rid then
               { r with pickup_code := some (generate_pickup_code u),
                        pickup_qr_path := some (qr_filename rid (generate_pickup_code u)) }
             else r),
           audit_log := w.db.audit_log ++
             [{ id := w.db.next_audit_id, event_type := "QR_GENERATED",
                payload := "prescription_id=" ++ toString rid ++ ";pickup_code=" ++
                  generate_pickup_code u ++ ";path=" ++
                  qr_filename rid (generate_pickup_code u) }],
           next_audit_id := w.db.next_audit_id + 1 },
         files := w.files ++ [(qr_filename rid (generate_pickup_code u), content)],
         qr_fetches := w.qr_fetches + 1 }) := by
  simp only [issue_new_qr, PrescriptionRepo.update_pickup_qr, AuditRepo.record_event]
  rw [if_neg (by simpa using hguard)]

/-! ### Claim C3: a failed fetch persists nothing -/

/-- Claim C3: if the external QR fetch fails during issuance (non-success
response or transport error, modelled as `fetch = none`), the whole call
fails and no partial state is persisted: for a prescription whose pickup
fields were both null, they are both still null afterwards, the database —
including the audit log — is unchanged, and no file is written; only the
attempted-fetch count grows. -/
theorem C3_qr_failure_no_partial_state (rid : Nat) (u : String) (w : World)
    (hnull : ∀ s ∈ w.db.prescriptions, s.id = rid →
      s.pickup_code = none ∧ s.pickup_qr_path = none) :
    ensure_pickup_code_and_qr rid u none w =
      (.error .qrFetchFailed, { w with qr_fetches := w.qr_fetches + 1 }) ∧
    (ensure_pickup_code_and_qr rid u none w).2.db = w.db ∧
    (ensure_pickup_code_and_qr rid u none w).2.files = w.files ∧
    (∀ s ∈ (ensure_pickup_code_and_qr rid u none w).2.db.prescriptions, s.id = rid →
      s.pickup_code = none ∧ s.pickup_qr_path = none) := by
  have hmain : ensure_pickup_code_and_qr rid u none w =
      (.error .qrFetchFailed, { w with qr_fetches := w.qr_fetches + 1 }) := by
    rw [ensure_not_fast, issue_new_qr_fail]
    intro c p hfind hcp
    rcases get_pickup_code_by_id_cases rid w.db with hnone | ⟨q, hq, hqid, hqfind⟩
    · rw [hnone] at hfind
      exact absurd hfind (by simp)
    · rw [hqfind] at hfind
      obtain ⟨hqc, hqp⟩ := hnull q hq hqid
      rw [hqc, hqp] at hfind
      obtain ⟨hfc, hfp⟩ : none = c ∧ none = p :=
        ⟨congrArg Prod.fst (Option.some.inj hfind),
         congrArg Prod.snd (Option.some.inj hfind)⟩
      rw [← hfc] at hcp
      exact absurd hcp.1 (by simp [truthy])
  refine ⟨hmain, by rw [hmain], by rw [hmain], ?_⟩
  rw [hmain]
  exact hnull

/-- Witness for C3: a failed fetch on the fresh prescription of the example
store leaves its pickup fields null and the database untouched. -/
theorem C3_qr_failure_witness :
    ensure_pickup_code_and_qr 1 exUuid none (wEx [rowFresh]) =
      (.error .qrFetchFailed, { wEx [rowFresh] with qr_fetches := 1 }) ∧
    (ensure_pickup_code_and_qr 1 exUuid none (wEx [rowFresh])).2.db = (wEx [rowFresh]).db := by
  have h := C3_qr_failure_no_partial_state 1 exUuid (wEx [rowFresh]) (by decide)
  exact ⟨h.1, h.2.1⟩

/-! ### Claim C7: issuance for a missing prescription id -/

/-- Claim C7: for a prescription id that references no stored prescription,
`ensure_pickup_code_and_qr` does not fail with a not-found error: it still
generates a fresh pickup code, performs the external fetch, writes the image
file, records a QR_GENERATED audit entry and returns the (code, path) pair,
while the row update affects no stored prescription. -/
theorem C7_missing_prescription (rid : Nat) (u : String) (content : List Nat) (w : World)
    (habs : ∀ s ∈ w.db.prescriptions, s.id ≠ rid) :
    ∃ e, ensure_pickup_code_and_qr rid u (some content) w =
        (.ok (generate_pickup_code u, qr_filename rid (generate_pickup_code u)),
         { w with
           db := { w.db with audit_log := w.db.audit_log ++ [e],
                             next_audit_id := w.db.next_audit_id + 1 },
           files := w.files ++ [(qr_filename rid (generate_pickup_code u), content)],
           qr_fetches := w.qr_fetches + 1 }) ∧
      e.event_type = "QR_GENERATED" ∧
      (ensure_pickup_code_and_qr rid u (some content) w).2.db.prescriptions =
        w.db.prescriptions := by
  have hanyid : w.db.prescriptions.any (fun r => decide (r.id = rid)) = false := by
    rw [List.any_eq_false]
    intro x hx
    simpa using habs x hx
  have hfind : PrescriptionRepo.get_pickup_code_by_id rid w.db = none := by
    unfold PrescriptionRepo.get_pickup_code_by_id
    rw [List.find?_eq_none.mpr]
    · rfl
    · intro x hx
      simpa using habs x hx
  have hmap : w.db.prescriptions.map (fun r =>
      if r.id = rid then
        { r with pickup_code := some (generate_pickup_code u),
                 pickup_qr_path := some (qr_filename rid (generate_pickup_code u)) }
      else r) = w.db.prescriptions :=
    map_update_id _ _ _ habs
  have hmain := issue_new_qr_ok rid u content w (by rw [hanyid]; simp)
  rw [hmap] at hmain
  have hens : ensure_pickup_code_and_qr rid u (some content) w =
      issue_new_qr rid u (some content) w := by
    apply ensure_not_fast
    intro c p hcp
    rw [hfind] at hcp
    exact absurd hcp (by simp)
  refine ⟨{ id := w.db.next_audit_id, event_type := "QR_GENERATED",
            payload := "prescription_id=" ++ toString rid ++ ";pickup_code=" ++
              generate_pickup_code u ++ ";path=" ++
              qr_filename rid (generate_pickup_code u) },
    ?_, rfl, ?_⟩
  · rw [hens, hmain]
  · rw [hens, hmain]

/-- Witness for C7: issuing for the absent id 9 in the example store
generates code "0123456789", fetches once, writes the file, audits, and
leaves the prescriptions table unchanged. -/
theorem C7_missing_prescription_witness :
    (ensure_pickup_code_and_qr 9 exUuid (some [1, 2]) (wEx [rowFresh])).1 =
      .ok ("0123456789", "qr_codes/prescription_9_0123456789.png") ∧
    (ensure_pickup_code_and_qr 9 exUuid (some [1, 2]) (wEx [rowFresh])).2.db.prescriptions =
      [rowFresh] := by
  obtain ⟨e, he, _, hpres⟩ :=
    C7_missing_prescription 9 exUuid [1, 2] (wEx [rowFresh]) (by decide)
  constructor
  · rw [he]
    rfl
  · exact hpres

/-! ### Claim C2: the dispense transition -/

/-- Claim C2: for every pickup code given to dispense — it fails with a
not-found error when no prescription has that code; fails with an
already-dispensed error when the found prescription's status is DISPENSED;
fails with an expired error, leaving the store unchanged and the status
still ACTIVE, when `expires_at` is set and strictly before the current
instant; and otherwise sets status to DISPENSED and `picked_up_at` to the
current time in one update of the matching row and then appends an
RX_DISPENSED audit entry. -/
theorem C2_dispense (code : String) (now : Nat) (w : World) :
    ((∀ r ∈ w.db.prescriptions, r.pickup_code ≠ some code) →
      dispense code now w = (.error .prescriptionNotFound, w)) ∧
    (∀ p, PrescriptionRepo.get_by_pickup_code code w.db = some p →
      ((p.status = "DISPENSED" → dispense code now w = (.error .alreadyDispensed, w)) ∧
       (p.status ≠ "DISPENSED" → ∀ t, p.expires_at = some t → t < now →
         dispense code now w = (.error .expired, w) ∧
         (p.status = "ACTIVE" →
           p ∈ (dispense code now w).2.db.prescriptions ∧ p.status = "ACTIVE")) ∧
       (p.status ≠ "DISPENSED" → (∀ t, p.expires_at = some t → ¬ t < now) →
         ∃ e, dispense code now w =
            (.ok (), { w with db := { w.db with
              prescriptions := w.db.prescriptions.map (fun r =>
                if r.id = p.id then
                  { r with status := "DISPENSED", picked_up_at := some now }
                else r),
              audit_log := w.db.audit_log ++ [e],
              next_audit_id := w.db.next_audit_id + 1 } }) ∧
           e.event_type = "RX_DISPENSED"))) := by
  constructor
  · intro hnone
    have hfind : PrescriptionRepo.get_by_pickup_code code w.db = none := by
      rw [PrescriptionRepo.get_by_pickup_code, List.find?_eq_none]
      intro x hx
      simpa using hnone x hx
    simp [dispense, hfind]
  · intro p hp
    refine ⟨?_, ?_, ?_⟩
    · intro hs
      simp [dispense, hp, hs]
    · intro hs t ht hlt
      have hexp : isExpired p now = true := by simp [isExpired, ht, hlt]
      have herr : dispense code now w = (.error .expired, w) := by
        simp only [dispense, hp]
        rw [if_neg hs, if_pos (by simp [hexp])]
      refine ⟨herr, fun hsa => ⟨?_, hsa⟩⟩
      rw [herr]
      exact List.mem_of_find?_eq_some hp
    · intro hs hnx
      have hexp : isExpired p now = false := by
        unfold isExpired
        cases he : p.expires_at with
        | none => rfl
        | some t => simpa using hnx t he
      refine ⟨{ id := w.db.next_audit_id, event_type := "RX_DISPENSED",
                payload := "prescription_id=" ++ toString p.id ++ ";pickup_code=" ++ code },
        ?_, rfl⟩
      simp only [dispense, hp]
      rw [if_neg hs, if_neg (by simp [hexp])]
      rfl

/-- Witness for C2: on the example store, an unknown code is rejected as not
found, a dispensed prescription as already dispensed, an expired one as
expired (and stays ACTIVE), and a live one dispenses successfully. -/
theorem C2_dispense_witness :
    dispense "NOPE" 100 (wEx [rowExpired]) = (.error .prescriptionNotFound, wEx [rowExpired]) ∧
    dispense "DDDDDDDDDD" 100 (wEx [rowDone]) = (.error .alreadyDispensed, wEx [rowDone]) ∧
    (dispense "ZZZZZZZZZZ" 100 (wEx [rowExpired]) = (.error .expired, wEx [rowExpired]) ∧
      rowExpired.status = "ACTIVE") ∧
    (dispense "ABCDE12345" 100 (wEx [rowIssued])).1 = .ok () := by
  refine ⟨?_, ?_, ?_, ?_⟩
  · exact (C2_dispense "NOPE" 100 (wEx [rowExpired])).1 (by decide)
  · exact ((C2_dispense "DDDDDDDDDD" 100 (wEx [rowDone])).2 rowDone (by decide)).1 (by decide)
  · refine ⟨?_, by decide⟩
    exact ((((C2_dispense "ZZZZZZZZZZ" 100 (wEx [rowExpired])).2 rowExpired (by decide)).2.1
      (by decide) 10 (by decide) (by decide))).1
  · obtain ⟨e, he, _⟩ :=
      (((C2_dispense "ABCDE12345" 100 (wEx [rowIssued])).2 rowIssued (by decide)).2.2
        (by decide) (by
          intro t ht
          have : t = 604800 := by
            have h604 : rowIssued.expires_at = some 604800 := by decide
            rw [h604] at ht
            exact (Option.some.inj ht).symm
          omega))
    rw [he]

/-! ### Claim C9: the dispensed report ordering -/

theorem dispLeR_iff_claimOrder (a b : PrescriptionRow) :
    PrescriptionRepo.dispLeR a b ↔ claimOrder a b := by
  unfold PrescriptionRepo.dispLeR PrescriptionRepo.dispLe claimOrder
  cases ha : a.picked_up_at <;> cases hb : b.picked_up_at <;> simp <;>
    first
      | omega
      | (split_ifs <;> omega)

/-- Claim C9: `listDispensed` returns exactly the prescriptions with status
DISPENSED (as a permutation of that selection), ordered by pickup time
descending with null `picked_up_at` entries sorting after all non-null ones,
and ties (including all-null entries among themselves) ordered by creation
time descending. -/
theorem C9_list_dispensed (db : DB) :
    (PrescriptionRepo.list_dispensed db).Perm
      (db.prescriptions.filter (fun r => decide (r.status = "DISPENSED"))) ∧
    (∀ p, p ∈ PrescriptionRepo.list_dispensed db ↔
      (p ∈ db.prescriptions ∧ p.status = "DISPENSED")) ∧
    (PrescriptionRepo.list_dispensed db).Pairwise claimOrder := by
  refine ⟨List.perm_insertionSort _ _, ?_, ?_⟩
  · intro p
    rw [PrescriptionRepo.list_dispensed, (List.perm_insertionSort _ _).mem_iff,
      List.mem_filter]
    simp
  · have hs := List.sorted_insertionSort PrescriptionRepo.dispLeR
      (db.prescriptions.filter (fun r => decide (r.status = "DISPENSED")))
    exact hs.imp (fun h => (dispLeR_iff_claimOrder _ _).mp h)

/-! ### Claim C1: idempotence of issuance -/

/-- Claim C1 as stated is false at a concrete input: on a prescription whose
pickup code and QR path are both already present, two sequential issuance
calls return the stored pair both times but perform zero external fetches in
total, not exactly one. -/
theorem C1_counterexample :
    ensure_pickup_code_and_qr 1 exUuid (some [1]) (wEx [rowIssued]) =
      (.ok ("ABCDE12345", "qr_codes/prescription_1_ABCDE12345.png"), wEx [rowIssued]) ∧
    ¬((ensure_pickup_code_and_qr 1 exUuid (some [1])
        ((ensure_pickup_code_and_qr 1 exUuid (some [1]) (wEx [rowIssued])).2)).2.qr_fetches =
      (wEx [rowIssued]).qr_fetches + 1) := by
  constructor
  · rfl
  · intro h
    exact absurd h (by decide)

/-- Claim C1 amended: when both pickup fields are already present (non-null,
non-empty), issuance returns exactly the stored pair with no fetch, no
mutation and no new audit entry; and two sequential issuance calls on a
stored prescription return the identical pair both times with AT MOST one
external fetch in total — exactly one when the pickup fields were not both
already set (and the fetch succeeds), zero when they were. -/
theorem C1_issuance_idempotent (u u2 : String) (fetch2 : Option (List Nat))
    (content : List Nat) (w : World) (r : PrescriptionRow)
    (hr : r ∈ w.db.prescriptions)
    (hdist : w.db.prescriptions.Pairwise pairOk)
    (hu : u ≠ "")
    (hfresh : ∀ s ∈ w.db.prescriptions, s.id ≠ r.id →
      s.pickup_code ≠ some (generate_pickup_code u)) :
    ∃ code path w1 w2,
      ensure_pickup_code_and_qr r.id u (some content) w = (.ok (code, path), w1) ∧
      ensure_pickup_code_and_qr r.id u2 fetch2 w1 = (.ok (code, path), w2) ∧
      w2.qr_fetches ≤ w.qr_fetches + 1 ∧
      ((truthy r.pickup_code = true ∧ truthy r.pickup_qr_path = true) →
        (some code = r.pickup_code ∧ some path = r.pickup_qr_path ∧ w1 = w ∧ w2 = w)) ∧
      (¬(truthy r.pickup_code = true ∧ truthy r.pickup_qr_path = true) →
        w2.qr_fetches = w.qr_fetches + 1) := by
  have hfindr : PrescriptionRepo.get_pickup_code_by_id r.id w.db =
      some (r.pickup_code, r.pickup_qr_path) := by
    unfold PrescriptionRepo.get_pickup_code_by_id
    rw [find_by_id hdist hr]
    rfl
  by_cases hboth : truthy r.pickup_code = true ∧ truthy r.pickup_qr_path = true
  · obtain ⟨c, hc⟩ : ∃ c, r.pickup_code = some c := by
      cases hpc : r.pickup_code with
      | none => rw [hpc] at hboth; exact absurd hboth.1 (by simp [truthy])
      | some c => exact ⟨c, rfl⟩
    obtain ⟨p, hp⟩ : ∃ p, r.pickup_qr_path = some p := by
      cases hpp : r.pickup_qr_path with
      | none => rw [hpp] at hboth; exact absurd hboth.2 (by simp [truthy])
      | some p => exact ⟨p, rfl⟩
    have hcne : c ≠ "" := by
      have := hboth.1
      rw [hc] at this
      simpa [truthy] using this
    have hpne : p ≠ "" := by
      have := hboth.2
      rw [hp] at this
      simpa [truthy] using this
    have hfind2 : PrescriptionRepo.get_pickup_code_by_id r.id w.db = some (some c, some p) := by
      rw [hfindr, hc, hp]
    have h1 := ensure_fast r.id u (some content) w c p hfind2 hcne hpne
    have h2 := ensure_fast r.id u2 fetch2 w c p hfind2 hcne hpne
    exact ⟨c, p, w, w, h1, h2, by omega,
      fun _ => ⟨hc.symm, hp.symm, rfl, rfl⟩,
      fun hn => absurd hboth hn⟩
  · have hens1 : ensure_pickup_code_and_qr r.id u (some content) w =
        issue_new_qr r.id u (some content) w := by
      apply ensure_not_fast
      intro c p hcp
      rw [hfindr] at hcp
      have hcc : c = r.pickup_code := congrArg Prod.fst (Option.some.inj hcp.symm)
      have hpp : p = r.pickup_qr_path := congrArg Prod.snd (Option.some.inj hcp.symm)
      rw [hcc, hpp]
      exact hboth
    have hguard : ¬((w.db.prescriptions.any (fun s => decide (s.id = r.id))) = true ∧
        (w.db.prescriptions.any (fun s =>
          decide (s.id ≠ r.id ∧ s.pickup_code = some (generate_pickup_code u)))) = true) := by
      rintro ⟨-, h2⟩
      rw [List.any_eq_true] at h2
      obtain ⟨x, hx, hxp⟩ := h2
      rw [decide_eq_true_eq] at hxp
      exact hfresh x hx hxp.1 hxp.2
    have hmain := issue_new_qr_ok r.id u content w hguard
    set g := generate_pickup_code u with hg
    set out := qr_filename r.id g with hout
    set w1 : World :=
      { w with
        db := { w.db with
          prescriptions := w.db.prescriptions.map (fun s =>
            if s.id = r.id then
              { s with pickup_code := some g, pickup_qr_path := some out }
            else s),
          audit_log := w.db.audit_log ++
            [{ id := w.db.next_audit_id, event_type := "QR_GENERATED",
               payload := "prescription_id=" ++ toString r.id ++ ";pickup_code=" ++
                 g ++ ";path=" ++ out }],
          next_audit_id := w.db.next_audit_id + 1 },
        files := w.files ++ [(out, content)],
        qr_fetches := w.qr_fetches + 1 } with hw1
    have hfind1 : PrescriptionRepo.get_pickup_code_by_id r.id w1.db =
        some (some g, some out) := by
      unfold PrescriptionRepo.get_pickup_code_by_id
      have hids : ∀ x : PrescriptionRow,
          ((fun s => if s.id = r.id then
            { s with pickup_code := some g, pickup_qr_path := some out }
          else s) x).id = x.id := by
        intro x
        by_cases hx : x.id = r.id <;> simp [hx]
      rw [show w1.db.prescriptions = w.db.prescriptions.map (fun s =>
          if s.id = r.id then
            { s with pickup_code := some g, pickup_qr_path := some out }
          else s) from rfl]
      rw [find?_map_by_id _ _ _ hids, find_by_id hdist hr]
      simp
    have h2 := ensure_fast r.id u2 fetch2 w1 g out hfind1
      (generate_pickup_code_ne_empty u hu) (qr_filename_ne_empty _ _)
    refine ⟨g, out, w1, w1, ?_, h2, ?_, fun hcon => absurd hcon hboth, fun _ => ?_⟩
    · rw [hens1, hmain]
    · show w1.qr_fetches ≤ w.qr_fetches + 1
      rw [hw1]
    · show w1.qr_fetches = w.qr_fetches + 1
      rw [hw1]

/-- Witness for C1: on the example store holding one fresh prescription, two
sequential issuance calls return the identical generated pair both times
and perform exactly one fetch. -/
theorem C1_issuance_idempotent_witness :
    ∃ code path w1 w2,
      ensure_pickup_code_and_qr 1 exUuid (some [1]) (wEx [rowFresh]) =
        (.ok (code, path), w1) ∧
      ensure_pickup_code_and_qr 1 exUuid none w1 = (.ok (code, path), w2) ∧
      w2.qr_fetches ≤ (wEx [rowFresh]).qr_fetches + 1 := by
  obtain ⟨code, path, w1, w2, h1, h2, h3, -, -⟩ :=
    C1_issuance_idempotent exUuid exUuid none [1] (wEx [rowFresh]) rowFresh
      (by decide) (by simp [wEx, dbEx]) (by decide) (by decide)
  exact ⟨code, path, w1, w2, h1, h2, h3⟩

/-! ### Shape of each operation's effect on the prescriptions table -/

theorem register_patient_ok (hcn fn ln : String) (dob : Nat) (ph em : Option String)
    (now : Nat) (db : DB) (p : PatientRow) (db1 : DB)
    (h : register_patient hcn fn ln dob ph em now db = .ok (p, db1)) :
    db1.prescriptions = db.prescriptions ∧
    db1.next_prescription_id = db.next_prescription_id := by
  unfold register_patient at h
  split at h
  · exact absurd h (by simp)
  · simp only [PatientRepo.create] at h
    split_ifs at h
    injection h with hpair
    injection hpair with hp2 hdb
    rw [← hdb]
    exact ⟨rfl, rfl⟩

theorem create_prescription_ok (pid : Nat) (dn dos : String) (ins : Option String)
    (dv now : Nat) (db : DB) (rx : PrescriptionRow) (db1 : DB)
    (h : create_prescription_for_patient pid dn dos ins dv now db = .ok (rx, db1)) :
    db1 = { db with prescriptions := db.prescriptions ++ [rx],
                    next_prescription_id := db.next_prescription_id + 1 } ∧
    rx.id = db.next_prescription_id ∧ rx.status = "ACTIVE" ∧
    rx.pickup_code = none ∧ rx.pickup_qr_path = none ∧ rx.picked_up_at = none := by
  simp only [create_prescription_for_patient, PrescriptionRepo.create] at h
  split_ifs at h
  injection h with hpair
  injection hpair with hrx hdb
  exact ⟨by rw [← hdb, ← hrx], by rw [← hrx], by rw [← hrx], by rw [← hrx],
    by rw [← hrx], by rw [← hrx]⟩

theorem add_patient_presc (hcn fn ln : String) (dob : Nat) (ph em : Option String)
    (now : Nat) (w : World) :
    ((Op.addPatient hcn fn ln dob ph em now).step w).db.prescriptions =
      w.db.prescriptions ∧
    ((Op.addPatient hcn fn ln dob ph em now).step w).db.next_prescription_id =
      w.db.next_prescription_id := by
  rcases hreg : register_patient hcn fn ln dob ph em now w.db with e | ⟨p, db1⟩
  · constructor <;> simp [Op.step, add_patient_command, hreg]
  · obtain ⟨h1, h2⟩ := register_patient_ok hcn fn ln dob ph em now w.db p db1 hreg
    constructor <;>
      simp [Op.step, add_patient_command, hreg, AuditRepo.record_event, h1, h2]

theorem new_prescription_presc (hcn dn dos : String) (ins : Option String)
    (dv now : Nat) (w : World) :
    (((Op.newPrescription hcn dn dos ins dv now).step w).db.prescriptions =
        w.db.prescriptions ∧
      ((Op.newPrescription hcn dn dos ins dv now).step w).db.next_prescription_id =
        w.db.next_prescription_id) ∨
    (∃ rx, ((Op.newPrescription hcn dn dos ins dv now).step w).db.prescriptions =
        w.db.prescriptions ++ [rx] ∧
      ((Op.newPrescription hcn dn dos ins dv now).step w).db.next_prescription_id =
        w.db.next_prescription_id + 1 ∧
      rx.id = w.db.next_prescription_id ∧ rx.status = "ACTIVE" ∧
      rx.pickup_code = none ∧ rx.pickup_qr_path = none ∧ rx.picked_up_at = none) := by
  rcases hget : PatientRepo.get_by_health_card hcn w.db with _ | patient
  · left
    constructor <;> simp [Op.step, new_prescription_command, hget]
  · rcases hcr : create_prescription_for_patient patient.id dn dos ins dv now w.db
        with e | ⟨rx, db1⟩
    · left
      constructor <;> simp [Op.step, new_prescription_command, hget, hcr]
    · obtain ⟨hdb, hid, hst, hc, hp, hpk⟩ :=
        create_prescription_ok patient.id dn dos ins dv now w.db rx db1 hcr
      right
      refine ⟨rx, ?_, ?_, hid, hst, hc, hp, hpk⟩ <;>
        simp [Op.step, new_prescription_command, hget, hcr, AuditRepo.record_event, hdb]

theorem ensure_presc (rid : Nat) (u : String) (f : Option (List Nat)) (w : World) :
    (((Op.generateQr rid u f).step w).db.prescriptions = w.db.prescriptions ∧
      ((Op.generateQr rid u f).step w).db.next_prescription_id =
        w.db.next_prescription_id) ∨
    (((Op.generateQr rid u f).step w).db.prescriptions =
        w.db.prescriptions.map (fun s =>
          if s.id = rid then
            { s with pickup_code := some (generate_pickup_code u),
                     pickup_qr_path := some (qr_filename rid (generate_pickup_code u)) }
          else s) ∧
      ((Op.generateQr rid u f).step w).db.next_prescription_id =
        w.db.next_prescription_id ∧
      (w.db.prescriptions.any (fun s => decide (s.id = rid)) = true →
        w.db.prescriptions.any (fun s =>
          decide (s.id ≠ rid ∧ s.pickup_code = some (generate_pickup_code u))) = false)) := by
  have hstep : (Op.generateQr rid u f).step w = (ensure_pickup_code_and_qr rid u f w).2 := rfl
  by_cases hfast : ∃ c p, PrescriptionRepo.get_pickup_code_by_id rid w.db = some (c, p) ∧
      truthy c = true ∧ truthy p = true
  · left
    obtain ⟨c, p, hfind, hc, hp⟩ := hfast
    obtain ⟨c2, hc2⟩ : ∃ c2, c = some c2 := by
      cases c with
      | none => exact absurd hc (by simp [truthy])
      | some c2 => exact ⟨c2, rfl⟩
    obtain ⟨p2, hp2⟩ : ∃ p2, p = some p2 := by
      cases p with
      | none => exact absurd hp (by simp [truthy])
      | some p2 => exact ⟨p2, rfl⟩
    rw [hc2] at hfind hc
    rw [hp2] at hfind hp
    rw [hstep, ensure_fast rid u f w c2 p2 hfind (by simpa [truthy] using hc)
      (by simpa [truthy] using hp)]
    exact ⟨rfl, rfl⟩
  · have hens : ensure_pickup_code_and_qr rid u f w = issue_new_qr rid u f w := by
      apply ensure_not_fast
      intro c p hcp hctr
      exact hfast ⟨c, p, hcp, hctr.1, hctr.2⟩
    rw [hstep, hens]
    rcases f with _ | content
    · left
      rw [issue_new_qr_fail]
      exact ⟨rfl, rfl⟩
    · by_cases hguard : (w.db.prescriptions.any (fun s => decide (s.id = rid))) = true ∧
          (w.db.prescriptions.any (fun s =>
            decide (s.id ≠ rid ∧ s.pickup_code = some (generate_pickup_code u)))) = true
      · left
        have herr : issue_new_qr rid u (some content) w =
            (.error .constraintViolation,
             { w with files := w.files ++ [(qr_filename rid (generate_pickup_code u), content)], qr_fetches := w.qr_fetches + 1 }) := by
          simp only [issue_new_qr, PrescriptionRepo.update_pickup_qr]
          rw [if_pos (by simpa using hguard)]
        rw [herr]
        exact ⟨rfl, rfl⟩
      · rw [issue_new_qr_ok rid u content w hguard]
        right
        refine ⟨rfl, rfl, ?_⟩
        intro hA
        by_contra hB
        exact hguard ⟨hA, by simpa using hB⟩

theorem dispense_presc (code : String) (now : Nat) (w : World) :
    ((Op.dispenseOp code now).step w).db.prescriptions = w.db.prescriptions ∧
      ((Op.dispenseOp code now).step w).db.next_prescription_id =
        w.db.next_prescription_id ∨
    (∃ p, PrescriptionRepo.get_by_pickup_code code w.db = some p ∧
      p.status ≠ "DISPENSED" ∧
      ((Op.dispenseOp code now).step w).db.prescriptions =
        w.db.prescriptions.map (fun s =>
          if s.id = p.id then { s with status := "DISPENSED", picked_up_at := some now }
          else s) ∧
      ((Op.dispenseOp code now).step w).db.next_prescription_id =
        w.db.next_prescription_id) := by
  have hstep : (Op.dispenseOp code now).step w = (dispense code now w).2 := rfl
  rcases hfind : PrescriptionRepo.get_by_pickup_code code w.db with _ | p
  · left
    constructor <;> simp [hstep, dispense, hfind]
  · by_cases hst : p.status = "DISPENSED"
    · left
      constructor <;> simp [hstep, dispense, hfind, hst]
    · by_cases hexp : isExpired p now = true
      · left
        have herr : dispense code now w = (.error .expired, w) := by
          simp only [dispense, hfind]
          rw [if_neg hst, if_pos (by simp [hexp])]
        rw [hstep, herr]
        exact ⟨rfl, rfl⟩
      · right
        refine ⟨p, rfl, hst, ?_⟩
        have hok : dispense code now w =
            (.ok (),
             { w with db := AuditRepo.record_event "RX_DISPENSED" ("prescription_id=" ++ toString p.id ++ ";pickup_code=" ++ code) (PrescriptionRepo.mark_dispensed p.id now w.db) }) := by
          simp only [dispense, hfind]
          rw [if_neg hst, if_neg (by simp [hexp])]
        rw [hstep, hok]
        exact ⟨rfl, rfl⟩

theorem quiet_presc (op : Op) (w : World)
    (hq : match op with
      | .reportDispensed | .notifyEmailOp .. | .notifySmsOp .. | .updateContactOp .. => True
      | _ => False) :
    (op.step w).db.prescriptions = w.db.prescriptions ∧
    (op.step w).db.next_prescription_id = w.db.next_prescription_id := by
  cases op with
  | reportDispensed => exact ⟨rfl, rfl⟩
  | notifyEmailOp p c q =>
    show (notify_email p c q w).db.prescriptions = _ ∧
      (notify_email p c q w).db.next_prescription_id = _
    unfold notify_email
    split_ifs <;> exact ⟨rfl, rfl⟩
  | notifySmsOp p c q =>
    show (notify_sms p c q w).db.prescriptions = _ ∧
      (notify_sms p c q w).db.next_prescription_id = _
    unfold notify_sms
    split_ifs <;> exact ⟨rfl, rfl⟩
  | updateContactOp pid ph em => exact ⟨rfl, rfl⟩
  | addPatient hcn fn ln dob ph em now => exact False.elim hq
  | newPrescription hcn dn dos ins dv now => exact False.elim hq
  | generateQr rid u f => exact False.elim hq
  | dispenseOp c now => exact False.elim hq

/-! ### Preservation of the store invariant -/

theorem inv_of_eq (db db2 : DB) (h : Inv db)
    (hp : db2.prescriptions = db.prescriptions)
    (hn : db2.next_prescription_id = db.next_prescription_id) : Inv db2 where
  id_lt := by rw [hp, hn]; exact h.id_lt
  distinct := by rw [hp]; exact h.distinct
  status_cases := by rw [hp]; exact h.status_cases
  dispensed_picked := by rw [hp]; exact h.dispensed_picked
  dispensed_has_code := by rw [hp]; exact h.dispensed_has_code
  pickup_both := by rw [hp]; exact h.pickup_both
  code_nonempty := by rw [hp]; exact h.code_nonempty
  path_nonempty := by rw [hp]; exact h.path_nonempty

theorem inv_append_active (db : DB) (h : Inv db) (row : PrescriptionRow)
    (hid : row.id = db.next_prescription_id) (hst : row.status = "ACTIVE")
    (hcode : row.pickup_code = none) (hpath : row.pickup_qr_path = none)
    (db2 : DB)
    (hp : db2.prescriptions = db.prescriptions ++ [row])
    (hn : db2.next_prescription_id = db.next_prescription_id + 1) : Inv db2 where
  id_lt := by
    rw [hp, hn]
    intro r hr
    rcases List.mem_append.mp hr with hr | hr
    · have := h.id_lt r hr
      omega
    · simp only [List.mem_singleton] at hr
      rw [hr, hid]
      omega
  distinct := by
    rw [hp, List.pairwise_append]
    refine ⟨h.distinct, List.pairwise_singleton _ _, ?_⟩
    intro a ha b hb
    simp only [List.mem_singleton] at hb
    rw [hb]
    constructor
    · have hlt := h.id_lt a ha
      intro heq
      rw [heq, hid] at hlt
      omega
    · intro c _ hrc
      rw [hcode] at hrc
      exact absurd hrc (by simp)
  status_cases := by
    rw [hp]
    intro r hr
    rcases List.mem_append.mp hr with hr | hr
    · exact h.status_cases r hr
    · simp only [List.mem_singleton] at hr
      rw [hr, hst]
      exact Or.inl rfl
  dispensed_picked := by
    rw [hp]
    intro r hr hd
    rcases List.mem_append.mp hr with hr | hr
    · exact h.dispensed_picked r hr hd
    · simp only [List.mem_singleton] at hr
      rw [hr, hst] at hd
      exact absurd hd (by decide)
  dispensed_has_code := by
    rw [hp]
    intro r hr hd
    rcases List.mem_append.mp hr with hr | hr
    · exact h.dispensed_has_code r hr hd
    · simp only [List.mem_singleton] at hr
      rw [hr, hst] at hd
      exact absurd hd (by decide)
  pickup_both := by
    rw [hp]
    intro r hr
    rcases List.mem_append.mp hr with hr | hr
    · exact h.pickup_both r hr
    · simp only [List.mem_singleton] at hr
      rw [hr, hcode, hpath]
  code_nonempty := by
    rw [hp]
    intro r hr
    rcases List.mem_append.mp hr with hr | hr
    · exact h.code_nonempty r hr
    · simp only [List.mem_singleton] at hr
      rw [hr, hcode]
      simp
  path_nonempty := by
    rw [hp]
    intro r hr
    rcases List.mem_append.mp hr with hr | hr
    · exact h.path_nonempty r hr
    · simp only [List.mem_singleton] at hr
      rw [hr, hpath]
      simp

theorem inv_map_pickup (db : DB) (h : Inv db) (rid : Nat) (g out : String)
    (hg : g ≠ "") (hout : out ≠ "")
    (hguard : db.prescriptions.any (fun s => decide (s.id = rid)) = true →
      db.prescriptions.any (fun s => decide (s.id ≠ rid ∧ s.pickup_code = some g)) = false)
    (db2 : DB)
    (hp : db2.prescriptions = db.prescriptions.map (fun s =>
      if s.id = rid then { s with pickup_code := some g, pickup_qr_path := some out }
      else s))
    (hn : db2.next_prescription_id = db.next_prescription_id) : Inv db2 := by
  have hother : ∀ x ∈ db.prescriptions, x.id = rid →
      ∀ y ∈ db.prescriptions, y.id ≠ rid → y.pickup_code ≠ some g := by
    intro x hx hxid y hy hyid
    have hA : db.prescriptions.any (fun s => decide (s.id = rid)) = true :=
      List.any_eq_true.mpr ⟨x, hx, by simp [hxid]⟩
    have hB := hguard hA
    rw [List.any_eq_false] at hB
    have hy2 := hB y hy
    simp only [decide_eq_true_eq, not_and] at hy2
    exact hy2 hyid
  constructor
  · rw [hp, hn]
    intro r hr
    obtain ⟨s, hs, rfl⟩ := List.mem_map.mp hr
    by_cases hsid : s.id = rid
    · rw [if_pos hsid]
      exact h.id_lt s hs
    · rw [if_neg hsid]
      exact h.id_lt s hs
  · rw [hp, List.pairwise_map]
    apply List.Pairwise.imp_of_mem ?_ h.distinct
    intro a b ha hb hab
    by_cases haid : a.id = rid
    · by_cases hbid : b.id = rid
      · exact absurd (haid.trans hbid.symm) hab.1
      · rw [if_pos haid, if_neg hbid]
        refine ⟨by simpa using hab.1, ?_⟩
        intro c hc
        have hcg : c = g := by simpa using hc.symm
        rw [hcg]
        exact hother a ha haid b hb hbid
    · by_cases hbid : b.id = rid
      · rw [if_neg haid, if_pos hbid]
        refine ⟨by simpa using hab.1, ?_⟩
        intro c hc hbc
        have hcg : g = c := by simpa using hbc
        rw [← hcg] at hc
        exact hother b hb hbid a ha haid hc
      · rw [if_neg haid, if_neg hbid]
        exact hab
  · rw [hp]
    intro r hr
    obtain ⟨s, hs, rfl⟩ := List.mem_map.mp hr
    by_cases hsid : s.id = rid
    · rw [if_pos hsid]
      exact h.status_cases s hs
    · rw [if_neg hsid]
      exact h.status_cases s hs
  · rw [hp]
    intro r hr
    obtain ⟨s, hs, rfl⟩ := List.mem_map.mp hr
    by_cases hsid : s.id = rid
    · rw [if_pos hsid]
      exact h.dispensed_picked s hs
    · rw [if_neg hsid]
      exact h.dispensed_picked s hs
  · rw [hp]
    intro r hr
    obtain ⟨s, hs, rfl⟩ := List.mem_map.mp hr
    by_cases hsid : s.id = rid
    · rw [if_pos hsid]
      intro _
      simp
    · rw [if_neg hsid]
      exact h.dispensed_has_code s hs
  · rw [hp]
    intro r hr
    obtain ⟨s, hs, rfl⟩ := List.mem_map.mp hr
    by_cases hsid : s.id = rid
    · rw [if_pos hsid]
      simp
    · rw [if_neg hsid]
      exact h.pickup_both s hs
  · rw [hp]
    intro r hr
    obtain ⟨s, hs, rfl⟩ := List.mem_map.mp hr
    by_cases hsid : s.id = rid
    · rw [if_pos hsid]
      simp [hg]
    · rw [if_neg hsid]
      exact h.code_nonempty s hs
  · rw [hp]
    intro r hr
    obtain ⟨s, hs, rfl⟩ := List.mem_map.mp hr
    by_cases hsid : s.id = rid
    · rw [if_pos hsid]
      simp [hout]
    · rw [if_neg hsid]
      exact h.path_nonempty s hs

theorem inv_map_mark (db : DB) (h : Inv db) (p : PrescriptionRow)
    (hpmem : p ∈ db.prescriptions) (hpcode : p.pickup_code.isSome = true) (now : Nat)
    (db2 : DB)
    (hp : db2.prescriptions = db.prescriptions.map (fun s =>
      if s.id = p.id then { s with status := "DISPENSED", picked_up_at := some now }
      else s))
    (hn : db2.next_prescription_id = db.next_prescription_id) : Inv db2 := by
  constructor
  · rw [hp, hn]
    intro r hr
    obtain ⟨s, hs, rfl⟩ := List.mem_map.mp hr
    by_cases hsid : s.id = p.id
    · rw [if_pos hsid]
      exact h.id_lt s hs
    · rw [if_neg hsid]
      exact h.id_lt s hs
  · rw [hp, List.pairwise_map]
    apply List.Pairwise.imp_of_mem ?_ h.distinct
    intro a b _ _ hab
    by_cases haid : a.id = p.id
    · by_cases hbid : b.id = p.id
      · exact absurd (haid.trans hbid.symm) hab.1
      · rw [if_pos haid, if_neg hbid]
        refine ⟨by simpa using hab.1, ?_⟩
        intro c hc
        exact hab.2 c (by simpa using hc)
    · by_cases hbid : b.id = p.id
      · rw [if_neg haid, if_pos hbid]
        refine ⟨by simpa using hab.1, ?_⟩
        intro c hc hbc
        exact hab.2 c hc (by simpa using hbc)
      · rw [if_neg haid, if_neg hbid]
        exact hab
  · rw [hp]
    intro r hr
    obtain ⟨s, hs, rfl⟩ := List.mem_map.mp hr
    by_cases hsid : s.id = p.id
    · rw [if_pos hsid]
      exact Or.inr rfl
    · rw [if_neg hsid]
      exact h.status_cases s hs
  · rw [hp]
    intro r hr
    obtain ⟨s, hs, rfl⟩ := List.mem_map.mp hr
    by_cases hsid : s.id = p.id
    · rw [if_pos hsid]
      intro _
      simp
    · rw [if_neg hsid]
      exact h.dispensed_picked s hs
  · rw [hp]
    intro r hr
    obtain ⟨s, hs, rfl⟩ := List.mem_map.mp hr
    by_cases hsid : s.id = p.id
    · rw [if_pos hsid]
      intro _
      have hsp : s = p := eq_of_mem_same_id h.distinct hs hpmem hsid
      show s.pickup_code.isSome = true
      rw [hsp]
      exact hpcode
    · rw [if_neg hsid]
      exact h.dispensed_has_code s hs
  · rw [hp]
    intro r hr
    obtain ⟨s, hs, rfl⟩ := List.mem_map.mp hr
    by_cases hsid : s.id = p.id
    · rw [if_pos hsid]
      exact h.pickup_both s hs
    · rw [if_neg hsid]
      exact h.pickup_both s hs
  · rw [hp]
    intro r hr
    obtain ⟨s, hs, rfl⟩ := List.mem_map.mp hr
    by_cases hsid : s.id = p.id
    · rw [if_pos hsid]
      exact h.code_nonempty s hs
    · rw [if_neg hsid]
      exact h.code_nonempty s hs
  · rw [hp]
    intro r hr
    obtain ⟨s, hs, rfl⟩ := List.mem_map.mp hr
    by_cases hsid : s.id = p.id
    · rw [if_pos hsid]
      exact h.path_nonempty s hs
    · rw [if_neg hsid]
      exact h.path_nonempty s hs

theorem valid_uuid_ne_empty (u : String) (hu : u.length = 32) : u ≠ "" := by
  intro h
  rw [h] at hu
  exact absurd hu (by decide)

theorem inv_step (op : Op) (hop : op.Valid) (w : World) (h : Inv w.db) :
    Inv (op.step w).db := by
  cases op with
  | addPatient hcn fn ln dob ph em now =>
    obtain ⟨h1, h2⟩ := add_patient_presc hcn fn ln dob ph em now w
    exact inv_of_eq w.db _ h h1 h2
  | newPrescription hcn dn dos ins dv now =>
    rcases new_prescription_presc hcn dn dos ins dv now w with
      ⟨h1, h2⟩ | ⟨rx, h1, h2, hid, hst, hc, hpp, hpk⟩
    · exact inv_of_eq w.db _ h h1 h2
    · exact inv_append_active w.db h rx hid hst hc hpp _ h1 h2
  | generateQr rid u f =>
    rcases ensure_presc rid u f w with ⟨h1, h2⟩ | ⟨h1, h2, hguard⟩
    · exact inv_of_eq w.db _ h h1 h2
    · have hu : u ≠ "" := valid_uuid_ne_empty u hop
      exact inv_map_pickup w.db h rid _ _ (generate_pickup_code_ne_empty u hu)
        (qr_filename_ne_empty _ _) hguard _ h1 h2
  | dispenseOp code now =>
    rcases dispense_presc code now w with ⟨h1, h2⟩ | ⟨p, hfind, hst, h1, h2⟩
    · exact inv_of_eq w.db _ h h1 h2
    · have hfind2 : w.db.prescriptions.find?
          (fun s => decide (s.pickup_code = some code)) = some p := hfind
      have hpmem : p ∈ w.db.prescriptions := List.mem_of_find?_eq_some hfind2
      have hpcode : p.pickup_code.isSome = true := by
        have hps := List.find?_some hfind2
        rw [decide_eq_true_eq] at hps
        rw [hps]
        rfl
      exact inv_map_mark w.db h p hpmem hpcode now _ h1 h2
  | reportDispensed =>
    obtain ⟨h1, h2⟩ := quiet_presc .reportDispensed w trivial
    exact inv_of_eq w.db _ h h1 h2
  | notifyEmailOp p c q =>
    obtain ⟨h1, h2⟩ := quiet_presc (.notifyEmailOp p c q) w trivial
    exact inv_of_eq w.db _ h h1 h2
  | notifySmsOp p c q =>
    obtain ⟨h1, h2⟩ := quiet_presc (.notifySmsOp p c q) w trivial
    exact inv_of_eq w.db _ h h1 h2
  | updateContactOp pid ph em =>
    obtain ⟨h1, h2⟩ := quiet_presc (.updateContactOp pid ph em) w trivial
    exact inv_of_eq w.db _ h h1 h2

theorem inv_init : Inv World.init.db := by
  constructor <;> first
    | exact List.Pairwise.nil
    | (intro r hr; simp [World.init] at hr)

theorem reachable_inv (w : World) (h : Reachable w) : Inv w.db := by
  induction h with
  | init => exact inv_init
  | step op hop hw ih => exact inv_step op hop _ ih

/-! ### Claim C5: the both-or-neither pickup invariant -/

/-- Claim C5: every operation of the system preserves the predicate that a
prescription's pickup_code and pickup_qr_path are either both set or both
unset (the only write to these fields sets both together in the single
update statement of `update_pickup_qr`), so no reachable state has exactly
one of them set. -/
theorem C5_pickup_both_or_neither :
    (∀ (op : Op) (w : World), pickupConsistent w.db → pickupConsistent (op.step w).db) ∧
    (∀ w, Reachable w → ∀ r ∈ w.db.prescriptions,
      ¬(r.pickup_code.isSome = true ∧ r.pickup_qr_path.isSome = false) ∧
      ¬(r.pickup_code.isSome = false ∧ r.pickup_qr_path.isSome = true)) := by
  have hpres : ∀ (op : Op) (w : World),
      pickupConsistent w.db → pickupConsistent (op.step w).db := by
    intro op w hc
    cases op with
    | addPatient hcn fn ln dob ph em now =>
      intro r hr
      rw [(add_patient_presc hcn fn ln dob ph em now w).1] at hr
      exact hc r hr
    | newPrescription hcn dn dos ins dv now =>
      intro r hr
      rcases new_prescription_presc hcn dn dos ins dv now w with
        ⟨h1, _⟩ | ⟨rx, h1, _, _, _, hcd, hpp, _⟩
      · rw [h1] at hr
        exact hc r hr
      · rw [h1] at hr
        rcases List.mem_append.mp hr with hr | hr
        · exact hc r hr
        · simp only [List.mem_singleton] at hr
          rw [hr, hcd, hpp]
    | generateQr rid u f =>
      intro r hr
      rcases ensure_presc rid u f w with ⟨h1, _⟩ | ⟨h1, _, _⟩
      · rw [h1] at hr
        exact hc r hr
      · rw [h1] at hr
        obtain ⟨s, hs, rfl⟩ := List.mem_map.mp hr
        by_cases hsid : s.id = rid
        · rw [if_pos hsid]
          simp
        · rw [if_neg hsid]
          exact hc s hs
    | dispenseOp code now =>
      intro r hr
      rcases dispense_presc code now w with ⟨h1, _⟩ | ⟨p, _, _, h1, _⟩
      · rw [h1] at hr
        exact hc r hr
      · rw [h1] at hr
        obtain ⟨s, hs, rfl⟩ := List.mem_map.mp hr
        by_cases hsid : s.id = p.id
        · rw [if_pos hsid]
          exact hc s hs
        · rw [if_neg hsid]
          exact hc s hs
    | reportDispensed =>
      intro r hr
      rw [(quiet_presc .reportDispensed w trivial).1] at hr
      exact hc r hr
    | notifyEmailOp p c q =>
      intro r hr
      rw [(quiet_presc (.notifyEmailOp p c q) w trivial).1] at hr
      exact hc r hr
    | notifySmsOp p c q =>
      intro r hr
      rw [(quiet_presc (.notifySmsOp p c q) w trivial).1] at hr
      exact hc r hr
    | updateContactOp pid ph em =>
      intro r hr
      rw [(quiet_presc (.updateContactOp pid ph em) w trivial).1] at hr
      exact hc r hr
  have hcons : ∀ w, Reachable w → pickupConsistent w.db := by
    intro w hw
    induction hw with
    | init => intro r hr; simp [World.init] at hr
    | step op hop hw ih => exact hpres op _ ih
  refine ⟨hpres, ?_⟩
  intro w hw r hr
  have hiff := hcons w hw r hr
  constructor
  · rintro ⟨h1, h2⟩
    have h3 := hiff.mp h1
    rw [h2] at h3
    exact absurd h3 (by simp)
  · rintro ⟨h1, h2⟩
    have h3 := hiff.mpr h2
    rw [h1] at h3
    exact absurd h3 (by simp)

/-- Witness for C5: the preservation statement applied to the report
operation on the freshly initialised store. -/
theorem C5_pickup_witness :
    pickupConsistent (Op.reportDispensed.step World.init).db :=
  C5_pickup_both_or_neither.1 Op.reportDispensed World.init
    (by intro r hr; simp [World.init] at hr)

/-! ### Claim C4: the dispensed state is terminal -/

/-- Claim C4: in every reachable state, any prescription with status
DISPENSED has a non-null `picked_up_at`; no subsequent valid operation
changes that row (in particular neither its status nor its `picked_up_at`);
and a second dispense attempt on its pickup code fails with the
already-dispensed error, leaving the world — hence `picked_up_at` —
unchanged. -/
theorem C4_dispensed_terminal (w : World) (r : PrescriptionRow)
    (hw : Reachable w) (hr : r ∈ w.db.prescriptions) (hd : r.status = "DISPENSED") :
    r.picked_up_at.isSome = true ∧
    (∀ op : Op, op.Valid → r ∈ (op.step w).db.prescriptions) ∧
    (∀ c now, r.pickup_code = some c →
      dispense c now w = (.error .alreadyDispensed, w)) := by
  have hinv := reachable_inv w hw
  refine ⟨hinv.dispensed_picked r hr hd, ?_, ?_⟩
  · intro op hop
    cases op with
    | addPatient hcn fn ln dob ph em now =>
      rw [(add_patient_presc hcn fn ln dob ph em now w).1]
      exact hr
    | newPrescription hcn dn dos ins dv now =>
      rcases new_prescription_presc hcn dn dos ins dv now w with ⟨h1, _⟩ | ⟨rx, h1, _⟩
      · rw [h1]
        exact hr
      · rw [h1]
        exact List.mem_append_left _ hr
    | generateQr rid u f =>
      by_cases hrid : r.id = rid
      · subst hrid
        obtain ⟨c, hcd⟩ := Option.isSome_iff_exists.mp (hinv.dispensed_has_code r hr hd)
        have hpath : r.pickup_qr_path.isSome = true := by
          have := (hinv.pickup_both r hr).mp
          rw [hcd] at this
          exact this rfl
        obtain ⟨p2, hp2⟩ := Option.isSome_iff_exists.mp hpath
        have hcne : c ≠ "" := by
          intro hce
          exact hinv.code_nonempty r hr (by rw [hcd, hce])
        have hpne : p2 ≠ "" := by
          intro hpe
          exact hinv.path_nonempty r hr (by rw [hp2, hpe])
        have hfind : PrescriptionRepo.get_pickup_code_by_id r.id w.db =
            some (some c, some p2) := by
          unfold PrescriptionRepo.get_pickup_code_by_id
          rw [find_by_id hinv.distinct hr]
          simp [hcd, hp2]
        have hstep : (Op.generateQr r.id u f).step w = w := by
          show (ensure_pickup_code_and_qr r.id u f w).2 = w
          rw [ensure_fast r.id u f w c p2 hfind hcne hpne]
        rw [hstep]
        exact hr
      · rcases ensure_presc rid u f w with ⟨h1, _⟩ | ⟨h1, _, _⟩
        · rw [h1]
          exact hr
        · rw [h1]
          refine List.mem_map.mpr ⟨r, hr, ?_⟩
          rw [if_neg hrid]
    | dispenseOp code now =>
      rcases dispense_presc code now w with ⟨h1, _⟩ | ⟨p, hfind, hst, h1, _⟩
      · rw [h1]
        exact hr
      · rw [h1]
        refine List.mem_map.mpr ⟨r, hr, ?_⟩
        have hfind2 : w.db.prescriptions.find?
            (fun s => decide (s.pickup_code = some code)) = some p := hfind
        have hpmem : p ∈ w.db.prescriptions := List.mem_of_find?_eq_some hfind2
        have hne : r.id ≠ p.id := by
          intro heq
          have hrp : r = p := eq_of_mem_same_id hinv.distinct hr hpmem heq
          rw [← hrp] at hst
          exact hst hd
        rw [if_neg hne]
    | reportDispensed =>
      rw [(quiet_presc .reportDispensed w trivial).1]
      exact hr
    | notifyEmailOp p c q =>
      rw [(quiet_presc (.notifyEmailOp p c q) w trivial).1]
      exact hr
    | notifySmsOp p c q =>
      rw [(quiet_presc (.notifySmsOp p c q) w trivial).1]
      exact hr
    | updateContactOp pid ph em =>
      rw [(quiet_presc (.updateContactOp pid ph em) w trivial).1]
      exact hr
  · intro c now hc
    have hfind : PrescriptionRepo.get_by_pickup_code c w.db = some r := by
      unfold PrescriptionRepo.get_by_pickup_code
      exact find_by_code hinv.distinct hr hc
    simp only [dispense, hfind]
    rw [if_pos hd]

/-- Witness for C4: the example run — register, prescribe, issue, dispense —
reaches a world whose dispensed row has `picked_up_at` set, survives a
report operation unchanged, and rejects a second dispense on its code. -/
theorem C4_dispensed_terminal_witness :
    rowDispensedEx.picked_up_at.isSome = true ∧
    rowDispensedEx ∈ (Op.reportDispensed.step exW4).db.prescriptions ∧
    dispense "0123456789" 2 exW4 = (.error .alreadyDispensed, exW4) := by
  have hreach : Reachable exW4 := by
    refine .step exOp4 trivial (.step exOp3 ?_ (.step exOp2 trivial (.step exOp1 trivial .init)))
    show exUuid.length = 32
    decide
  have h := C4_dispensed_terminal exW4 rowDispensedEx hreach (by decide) (by decide)
  exact ⟨h.1, h.2.1 Op.reportDispensed trivial, h.2.2 "0123456789" 2 (by decide)⟩

/-! ### Claim C6: the notifier factory -/

/-- Claim C6 as stated is false at a concrete input: the configuration
value "qr" does not select a QR variant — `NotifierFactory.create` raises
"Unknown notifier type" on it, and the default (no value set) is the Email
variant, not QR. -/
theorem C6_counterexample :
    NotifierFactory.create (some "qr") = .error .unknownNotifier ∧
    NotifierFactory.create none = .ok .email := by
  constructor <;> rfl

/-- Claim C6 amended: the notifier variant is one of {Email, SMS} — there is
no QR variant; the factory reads the HP_NOTIFY_TYPE configuration value,
defaulting to "email" when unset, and lowercases it; every value lowercasing
to "email" selects the Email variant and every value lowercasing to "sms"
the SMS variant, each without error; every other value — in particular
"qr" — fails with an unknown-notifier error. -/
theorem C6_notifier_factory :
    NotifierFactory.create none = .ok .email ∧
    NotifierFactory.create (some "qr") = .error .unknownNotifier ∧
    (∀ k : NotifierKind, k = .email ∨ k = .sms) ∧
    (∀ v : String, strLower v = "email" →
      NotifierFactory.create (some v) = .ok .email) ∧
    (∀ v : String, strLower v = "sms" →
      NotifierFactory.create (some v) = .ok .sms) ∧
    (∀ v : String, strLower v ≠ "email" → strLower v ≠ "sms" →
      NotifierFactory.create (some v) = .error .unknownNotifier) := by
  refine ⟨rfl, rfl, ?_, ?_, ?_, ?_⟩
  · intro k
    cases k
    · exact Or.inl rfl
    · exact Or.inr rfl
  · intro v h
    simp [NotifierFactory.create, h]
  · intro v h
    simp [NotifierFactory.create, h]
  · intro v h1 h2
    simp only [NotifierFactory.create, Option.getD_some]
    rw [if_neg h1, if_neg h2]

/-- Witness for C6: the universal clauses applied at concrete values —
"Email" lowercases to "email" and selects the Email variant, "SMS" selects
the SMS variant, and "QR" (lowercasing to "qr") is rejected with the
unknown-notifier error. -/
theorem C6_notifier_factory_witness :
    NotifierFactory.create (some "Email") = .ok .email ∧
    NotifierFactory.create (some "SMS") = .ok .sms ∧
    NotifierFactory.create (some "QR") = .error .unknownNotifier := by
  have h := C6_notifier_factory
  exact ⟨h.2.2.2.1 "Email" rfl, h.2.2.2.2.1 "SMS" rfl,
    h.2.2.2.2.2 "QR" (by decide) (by decide)⟩

/-! ### Claim C8: patient registration -/

/-- Claim C8 as stated is false at a concrete input: the 33-character
health-card number below is absent from the example patient store, yet
registration fails and persists nothing — its stored hex encoding is 66
characters, exceeding the `health_card_no VARCHAR(64)` column of db.py. -/
theorem C8_counterexample :
    register_patient "AAAAAAAAAAAAAAAAAAAAAAAAAAAAAAAAA" "Bob" "Smith" 19800101
      none none 7 (dbEx []) = .error .constraintViolation ∧
    (∀ p ∈ (dbEx []).patients,
      p.health_card_no ≠ hcn_to_hex "AAAAAAAAAAAAAAAAAAAAAAAAAAAAAAAAA") := by
  exact ⟨rfl, by decide⟩

/-- Claim C8 amended: for every health-card number already present in the
patient store, `register_patient` fails with the duplicate-patient error and
does not create a second patient row; for every health-card number not
present whose stored hex encoding fits the VARCHAR(64) column, and with the
other patient fields within their declared column widths, it persists
exactly one new patient and returns it with an assigned id and creation
timestamp; an absent health-card number whose hex encoding exceeds the
column width fails with a constraint error and persists nothing. -/
theorem C8_register_patient (hcn first_name last_name : String) (dob : Nat)
    (phone email : Option String) (now : Nat) (db : DB) :
    ((∃ p ∈ db.patients, p.health_card_no = hcn_to_hex hcn) →
      register_patient hcn first_name last_name dob phone email now db =
        .error .duplicatePatient) ∧
    ((∀ p ∈ db.patients, p.health_card_no ≠ hcn_to_hex hcn) →
      (hcn_to_hex hcn).length ≤ 64 → first_name.length ≤ 100 →
      last_name.length ≤ 100 →
      (∀ p, phone = some p → p.length ≤ 30) →
      (∀ e, email = some e → e.length ≤ 255) →
      ∃ row, register_patient hcn first_name last_name dob phone email now db =
          .ok (row, { db with patients := db.patients ++ [row],
                              next_patient_id := db.next_patient_id + 1 }) ∧
        row.id = db.next_patient_id ∧ row.created_at = now ∧
        row.health_card_no = hcn_to_hex hcn) ∧
    ((∀ p ∈ db.patients, p.health_card_no ≠ hcn_to_hex hcn) →
      64 < (hcn_to_hex hcn).length →
      register_patient hcn first_name last_name dob phone email now db =
        .error .constraintViolation) := by
  have hnofind : (∀ p ∈ db.patients, p.health_card_no ≠ hcn_to_hex hcn) →
      PatientRepo.get_by_health_card hcn db = none := by
    intro hall
    rw [PatientRepo.get_by_health_card, List.find?_eq_none]
    intro x hx
    simpa using hall x hx
  refine ⟨?_, ?_, ?_⟩
  · intro ⟨p, hp, hpc⟩
    have hfind : ∃ q, PatientRepo.get_by_health_card hcn db = some q := by
      have hne : ¬ (db.patients.find?
          (fun r => decide (r.health_card_no = hcn_to_hex hcn)) = none) := by
        rw [List.find?_eq_none]
        intro hall
        exact absurd (by simpa using hpc) (by simpa using hall p hp)
      rcases h : PatientRepo.get_by_health_card hcn db with _ | q
      · exact absurd h hne
      · exact ⟨q, rfl⟩
    obtain ⟨q, hq⟩ := hfind
    simp [register_patient, hq]
  · intro hall h64 h100a h100b hph hem
    have hany : db.patients.any
        (fun r => decide (r.health_card_no = hcn_to_hex hcn)) = false := by
      rw [List.any_eq_false]
      intro x hx
      simpa using hall x hx
    have hphone : phone.any (fun p => decide (p.length > 30)) = false := by
      cases phone with
      | none => rfl
      | some p => simpa using Nat.not_lt.mpr (hph p rfl)
    have hemail : email.any (fun e => decide (e.length > 255)) = false := by
      cases email with
      | none => rfl
      | some e => simpa using Nat.not_lt.mpr (hem e rfl)
    refine ⟨{ id := db.next_patient_id, health_card_no := hcn_to_hex hcn, first_name,
              last_name, date_of_birth := dob, phone, email, created_at := now },
      ?_, rfl, rfl, rfl⟩
    simp only [register_patient, hnofind hall, PatientRepo.create]
    rw [if_neg (by
      simp only [not_or, not_lt, hphone, hemail]
      refine ⟨h64, h100a, h100b, by simp, by simp⟩)]
    rw [if_neg (by simp [hany])]
  · intro hall h64
    simp only [register_patient, hnofind hall, PatientRepo.create]
    rw [if_pos (Or.inl (by omega))]

/-- Witness for C8: registering "HCN123" against a store already containing
it fails with the duplicate error; registering "HCN999" (12 stored hex
characters, all fields within bounds) succeeds and appends exactly one row
with the assigned id; an absent 33-character number fails on the column
width. -/
theorem C8_register_patient_witness :
    register_patient "HCN123" "Bob" "Smith" 19800101 none none 7 (dbEx []) =
      .error .duplicatePatient ∧
    (∃ row, register_patient "HCN999" "Bob" "Smith" 19800101 none none 7 (dbEx []) =
        .ok (row, { dbEx [] with patients := (dbEx []).patients ++ [row],
                                 next_patient_id := (dbEx []).next_patient_id + 1 }) ∧
      row.id = (dbEx []).next_patient_id ∧ row.created_at = 7 ∧
      row.health_card_no = hcn_to_hex "HCN999") ∧
    register_patient "AAAAAAAAAAAAAAAAAAAAAAAAAAAAAAAAA" "Bob" "Smith" 19800101
      none none 7 (dbEx []) = .error .constraintViolation := by
  refine ⟨?_, ?_, ?_⟩
  · exact (C8_register_patient "HCN123" "Bob" "Smith" 19800101 none none 7 (dbEx [])).1
      ⟨patAda, by decide, by decide⟩
  · exact (C8_register_patient "HCN999" "Bob" "Smith" 19800101 none none 7 (dbEx [])).2.1
      (by decide) (by decide) (by decide) (by decide) (by simp) (by simp)
  · exact (C8_register_patient "AAAAAAAAAAAAAAAAAAAAAAAAAAAAAAAAA" "Bob" "Smith"
      19800101 none none 7 (dbEx [])).2.2 (by decide) (by decide)

end HealthPass
